import Mathlib

set_option maxHeartbeats 1000000

/-!
Shallow embedding of `src/excel_mcp_server.py`, an MCP server exposing
spreadsheet operations sandboxed to a workspace directory.  Paths are
modelled as lists of segments of their symlink-resolved absolute form;
workbooks are ordered lists of named sheets; a sheet is a total function
from 1-based (row, column) coordinates to cells.  The disk content at the
single relevant resolved path is an `Option Workbook`; each operation
threads it explicitly, and the only places it changes are the two `save`
sites of the source (`_load_or_create_workbook` on creation, and the final
`wb.save(path)` of each mutating operation).  Python `ValueError` sites are
mapped to the error taxonomy of the specification.
-/

namespace ExcelMcp

/-- Error taxonomy; each constructor corresponds to one `raise` site of the
source (or of its specification). -/
inductive Err where
  | OutOfWorkspace
  | UnsupportedExtension
  | PathIsDirectory
  | WorkbookNotFound
  | CorruptWorkbook
  | InvalidSheetName
  | SheetNotFound
  | SheetNameCollision
  | LastSheetViolation
  | InvalidIndex
  | InvalidColor
  | InvalidRangeAddress
deriving DecidableEq, Repr

/-- Cell values: opaque scalars as in the spec data model (text, number,
boolean, or absent/empty).  Numbers are carried by `Int`; no operation of
the source performs arithmetic on them. -/
inductive CellValue where
  | empty
  | text (s : String)
  | number (n : Int)
  | boolean (b : Bool)
deriving DecidableEq, Repr

/-- Font attributes: exactly the fields the source copies when rebuilding a
font in `format_range` (name, sz, italic, color, underline, strike) plus
`bold`.  Defaults are `none`, matching openpyxl's unset attributes. -/
structure Font where
  fontName : Option String := none
  sz : Option Int := none
  italic : Option Bool := none
  color : Option String := none
  underline : Option String := none
  strike : Option Bool := none
  bold : Option Bool := none
deriving DecidableEq, Repr

/-- Alignment attributes: exactly the fields the source copies when
rebuilding an alignment in `format_range`. -/
structure Alignment where
  horizontal : Option String := none
  vertical : Option String := none
  wrapText : Option Bool := none
  textRotation : Int := 0
  shrinkToFit : Option Bool := none
  indent : Int := 0
deriving DecidableEq, Repr

/-- One cell: a value plus the formatting attributes touched by the server.
`fill` is the solid-fill foreground color when set (`PatternFill` with
`fill_type="solid"`). -/
structure Cell where
  value : CellValue := .empty
  font : Font := {}
  alignment : Alignment := {}
  number_format : String := "General"
  fill : Option String := none
deriving DecidableEq, Repr

def defaultCell : Cell := {}

/-- A worksheet: a total map from 1-based (row, column) to cells; unset
cells read as `defaultCell`, as openpyxl materialises empty cells on
access. -/
structure Sheet where
  cells : Nat → Nat → Cell

def Sheet.get (s : Sheet) (r c : Nat) : Cell := s.cells r c

def Sheet.setCell (s : Sheet) (r c : Nat) (cell : Cell) : Sheet :=
  ⟨fun r' c' => if r' = r ∧ c' = c then cell else s.cells r' c'⟩

def Sheet.setValue (s : Sheet) (r c : Nat) (v : CellValue) : Sheet :=
  ⟨fun r' c' => if r' = r ∧ c' = c then { s.cells r' c' with value := v }
    else s.cells r' c'⟩

def emptySheet : Sheet := ⟨fun _ _ => defaultCell⟩

/-- `ws.insert_rows(idx, amount)`: rows at positions ≥ idx shift down by
`amount`, the freed rows become empty. -/
def Sheet.insertRows (s : Sheet) (idx amount : Nat) : Sheet :=
  ⟨fun r c => if r < idx then s.cells r c
    else if r < idx + amount then defaultCell
    else s.cells (r - amount) c⟩

/-- `ws.delete_rows(idx, amount)`: rows idx..idx+amount-1 are removed,
later rows shift up. -/
def Sheet.deleteRows (s : Sheet) (idx amount : Nat) : Sheet :=
  ⟨fun r c => if r < idx then s.cells r c else s.cells (r + amount) c⟩

/-- `ws.insert_cols(idx, amount)`. -/
def Sheet.insertCols (s : Sheet) (idx amount : Nat) : Sheet :=
  ⟨fun r c => if c < idx then s.cells r c
    else if c < idx + amount then defaultCell
    else s.cells r (c - amount)⟩

/-- `ws.delete_cols(idx, amount)`. -/
def Sheet.deleteCols (s : Sheet) (idx amount : Nat) : Sheet :=
  ⟨fun r c => if c < idx then s.cells r c else s.cells r (c + amount)⟩

/-- A workbook: ordered list of (title, sheet) pairs; openpyxl keeps sheet
titles unique. -/
structure Workbook where
  sheets : List (String × Sheet)

def Workbook.sheetnames (wb : Workbook) : List String :=
  wb.sheets.map Prod.fst

def Workbook.find? (wb : Workbook) (name : String) : Option Sheet :=
  (wb.sheets.find? (fun p => p.1 = name)).map Prod.snd

/-- Fetch a sheet known to be present (`wb[name]` after a membership
check); total with a default for ease of statement. -/
def Workbook.getSheet (wb : Workbook) (name : String) : Sheet :=
  (wb.find? name).getD emptySheet

/-- Write back a mutated sheet under its name (in Python the worksheet is
a mutable reference into the workbook). -/
def Workbook.updSheet (wb : Workbook) (name : String) (s : Sheet) : Workbook :=
  ⟨wb.sheets.map (fun p => if p.1 = name then (p.1, s) else p)⟩

/-- `wb[old].title = new`: rename in place, preserving position and
content. -/
def Workbook.renameSheet (wb : Workbook) (old new : String) : Workbook :=
  ⟨wb.sheets.map (fun p => if p.1 = old then (new, p.2) else p)⟩

/-- `del wb[name]`. -/
def Workbook.removeSheet (wb : Workbook) (name : String) : Workbook :=
  ⟨wb.sheets.filter (fun p => ¬ p.1 = name)⟩

/-- `wb.create_sheet(title=name)`: append at the end. -/
def Workbook.createSheet (wb : Workbook) (name : String) : Workbook :=
  ⟨wb.sheets ++ [(name, emptySheet)]⟩

/-- `Workbook()`: a fresh workbook holds one default sheet titled
"Sheet". -/
def newWorkbook : Workbook := ⟨[("Sheet", emptySheet)]⟩

/-! Path resolver (`_safe_path`).  A resolved absolute path is a list of
segments (the root directory is `[]`); symlink and `~` resolution has
already happened, exactly as `Path(...).expanduser().resolve()` produces.
`Path.parents` membership is ancestor-by-segments, not string-prefix. -/

/-- `workspace_root in candidate.parents`: the root's segments are a
strict initial run of the candidate's segments. -/
def isAncestorOf (root cand : List String) : Bool :=
  decide (root.length < cand.length) && decide (cand.take root.length = root)

/-- The containment test of `_safe_path`: equal to the workspace root or
strictly nested under it. -/
def safeWithin (root cand : List String) : Bool :=
  isAncestorOf root cand || decide (cand = root)

def lastSegment (cand : List String) : String := cand.getLast? |>.getD ""

def lastDotIdxAux : List Char → Nat → Option Nat → Option Nat
  | [], _, acc => acc
  | ch :: cs, i, acc => lastDotIdxAux cs (i + 1) (if ch = '.' then some i else acc)

/-- `Path(...).suffix`: the final extension of the last path component,
empty unless the last dot is neither the first nor the last character. -/
def fileSuffix (name : String) : String :=
  let cs := name.toList
  match lastDotIdxAux cs 0 none with
  | none => ""
  | some i => if 0 < i ∧ i + 1 < cs.length then String.mk (cs.drop i) else ""

/-- ASCII lowercasing (`.lower()`), written over the character list so
that it evaluates by kernel reduction. -/
def lowerString (s : String) : String := String.mk (s.toList.map Char.toLower)

/-- ASCII uppercasing (`.upper()`). -/
def upperString (s : String) : String := String.mk (s.toList.map Char.toUpper)

/-- `.strip()`: remove leading and trailing whitespace. -/
def trimChars (cs : List Char) : List Char :=
  ((cs.dropWhile Char.isWhitespace).reverse.dropWhile Char.isWhitespace).reverse

/-- `.split(sep)` for a one-character separator. -/
def splitOnChar (sep : Char) : List Char → List (List Char)
  | [] => [[]]
  | c :: cs =>
    if c = sep then [] :: splitOnChar sep cs
    else
      match splitOnChar sep cs with
      | [] => [[c]]
      | g :: gs => (c :: g) :: gs

def ALLOWED_EXTENSIONS : List String := [".xlsx", ".xlsm"]

/-- Per-call context of one operation: the resolved workspace root, the
resolved candidate path, and whether the candidate exists as a directory
on disk. -/
structure Ctx where
  root : List String
  cand : List String
  isDir : Bool
deriving DecidableEq, Repr

/-- `_safe_path`: workspace containment, then extension allow-list
(case-insensitive), then the directory check, in source order. -/
def safe_path (ctx : Ctx) : Except Err Unit :=
  if ¬ safeWithin ctx.root ctx.cand then .error .OutOfWorkspace
  else if ¬ ALLOWED_EXTENSIONS.contains (lowerString (fileSuffix (lastSegment ctx.cand))) then
    .error .UnsupportedExtension
  else if ctx.isDir then .error .PathIsDirectory
  else .ok ()

/-- `_load_or_create_workbook`: the disk content at the resolved path is
`some wb` when the file exists.  Creation persists the fresh workbook
immediately (`wb.save(path)` inside the accessor); loading never writes.
Parsing failures (`CorruptWorkbook`) are not representable here because
the disk already holds parsed workbooks. -/
def load_or_create_workbook (disk : Option Workbook) (create_if_missing : Bool) :
    Except Err (Workbook × Option Workbook) :=
  match disk with
  | some wb => .ok (wb, some wb)
  | none =>
    if create_if_missing then .ok (newWorkbook, some newWorkbook)
    else .error .WorkbookNotFound

/-- The forbidden characters of `_validate_sheet_name`
(`set(r'[]:*?/\\')`). -/
def invalidSheetChars : List Char := ['[', ']', ':', '*', '?', '/', '\\']

def validSheetName (name : String) : Bool :=
  decide (1 ≤ name.length) && decide (name.length ≤ 31) &&
    name.toList.all (fun c => ¬ invalidSheetChars.contains c)

/-- `_validate_sheet_name`. -/
def validate_sheet_name (name : String) : Except Err Unit :=
  if validSheetName name then .ok () else .error .InvalidSheetName

/-- `_ensure_sheet`: validate, return the workbook unchanged if the sheet
exists, append a fresh sheet when allowed, else fail. -/
def ensure_sheet (wb : Workbook) (name : String) (create_if_missing : Bool) :
    Except Err Workbook :=
  match validate_sheet_name name with
  | .error e => .error e
  | .ok _ =>
    if name ∈ wb.sheetnames then .ok wb
    else if create_if_missing then .ok (wb.createSheet name)
    else .error .SheetNotFound

/-! Cell and range address parsing.  `ws[coordinate]` and openpyxl's
`range_boundaries` accept `A1`-style coordinates; we model plain
column-letter/row-number coordinates (the forms the server's callers use)
and rectangular `corner:corner` ranges.  Boundaries follow openpyxl's
`(min_col, min_row, max_col, max_row)` order, taken from the two corners
as written. -/

def isColLetter (c : Char) : Bool := 'A' ≤ c && c ≤ 'Z'

def colVal (cs : List Char) : Nat :=
  cs.foldl (fun acc c => acc * 26 + (c.toNat - 'A'.toNat + 1)) 0

def digitsVal (cs : List Char) : Nat :=
  cs.foldl (fun acc c => acc * 10 + (c.toNat - '0'.toNat)) 0

/-- Parse a cell coordinate such as `B12` into `(column, row)`, both
1-based. -/
def parseCellRefChars (cs : List Char) : Option (Nat × Nat) :=
  let letters := cs.takeWhile isColLetter
  let digits := cs.dropWhile isColLetter
  if letters ≠ [] && digits ≠ [] && digits.all Char.isDigit &&
      decide (digits.headD '0' ≠ '0') then
    some (colVal letters, digitsVal digits)
  else none

def parseCellRef (s : String) : Option (Nat × Nat) := parseCellRefChars s.toList

/-- Parse `A1:C10` (or a single coordinate, as `range_boundaries` allows)
into `(min_col, min_row, max_col, max_row)`. -/
def parseRange (s : String) : Option (Nat × Nat × Nat × Nat) :=
  match splitOnChar ':' s.toList with
  | [a] =>
    match parseCellRefChars a with
    | some (c, r) => some (c, r, c, r)
    | none => none
  | [a, b] =>
    match parseCellRefChars a, parseCellRefChars b with
    | some (c1, r1), some (c2, r2) => some (c1, r1, c2, r2)
    | _, _ => none
  | _ => none

/-- Parse a range for `ws[cell_range]` in `read_range`: only the
two-corner form yields the tuple-of-rows shape the list comprehension of
the source consumes. -/
def parseRangeColon (s : String) : Option (Nat × Nat × Nat × Nat) :=
  match splitOnChar ':' s.toList with
  | [a, b] =>
    match parseCellRefChars a, parseCellRefChars b with
    | some (c1, r1), some (c2, r2) => some (c1, r1, c2, r2)
    | _, _ => none
  | _ => none

/-- The inclusive 1-based positions `lo..hi` (empty when `hi < lo`), as
openpyxl iterates them. -/
def rangeList (lo hi : Nat) : List Nat :=
  (List.range (hi + 1 - lo)).map (lo + ·)

/-- Row-major list of (row, column) pairs visited by
`ws.iter_rows(min_row, max_row, min_col, max_col)`. -/
def rangeCells (minC minR maxC maxR : Nat) : List (Nat × Nat) :=
  (rangeList minR maxR).flatMap (fun r => (rangeList minC maxC).map (fun c => (r, c)))

/-- The 2-D row-major value grid `[[cell.value for cell in row] for row in
ws[cell_range]]`. -/
def readGrid (ws : Sheet) (minC minR maxC maxR : Nat) : List (List CellValue) :=
  (rangeList minR maxR).map (fun r => (rangeList minC maxC).map (fun c => (ws.get r c).value))

/-! The tool operations.  Each takes the per-call `Ctx`, the disk content
at the resolved candidate path, and its named arguments, and returns the
call result (or error) together with the disk content after the call. -/

structure ListSheetsResult where
  sheets : List String
deriving DecidableEq, Repr

/-- `list_sheets`. -/
def list_sheets (ctx : Ctx) (disk : Option Workbook) (create_if_missing : Bool) :
    Except Err ListSheetsResult × Option Workbook :=
  match safe_path ctx with
  | .error e => (.error e, disk)
  | .ok _ =>
    match load_or_create_workbook disk create_if_missing with
    | .error e => (.error e, disk)
    | .ok (wb, disk1) => (.ok ⟨wb.sheetnames⟩, disk1)

structure ReadRangeResult where
  sheet_name : String
  values : List (List CellValue)
deriving DecidableEq, Repr

/-- `read_range`.  Read-only: the workbook is never saved after loading
(the accessor itself saves only when it creates a missing file). -/
def read_range (ctx : Ctx) (disk : Option Workbook)
    (sheet_name cell_range : String) (create_if_missing : Bool) :
    Except Err ReadRangeResult × Option Workbook :=
  match safe_path ctx with
  | .error e => (.error e, disk)
  | .ok _ =>
    match load_or_create_workbook disk create_if_missing with
    | .error e => (.error e, disk)
    | .ok (wb, disk1) =>
      match ensure_sheet wb sheet_name create_if_missing with
      | .error e => (.error e, disk1)
      | .ok wb1 =>
        match parseRangeColon cell_range with
        | none => (.error .InvalidRangeAddress, disk1)
        | some (minC, minR, maxC, maxR) =>
          (.ok ⟨sheet_name, readGrid (wb1.getSheet sheet_name) minC minR maxC maxR⟩, disk1)

structure WriteCellResult where
  cell : String
  value : CellValue
deriving DecidableEq, Repr

/-- `write_cell`: `ws[cell] = value` (assigns unconditionally, `None`
included), then save. -/
def write_cell (ctx : Ctx) (disk : Option Workbook)
    (sheet_name cell : String) (value : CellValue) (create_if_missing : Bool) :
    Except Err WriteCellResult × Option Workbook :=
  match safe_path ctx with
  | .error e => (.error e, disk)
  | .ok _ =>
    match load_or_create_workbook disk create_if_missing with
    | .error e => (.error e, disk)
    | .ok (wb, disk1) =>
      match ensure_sheet wb sheet_name create_if_missing with
      | .error e => (.error e, disk1)
      | .ok wb1 =>
        match parseCellRef cell with
        | none => (.error .InvalidRangeAddress, disk1)
        | some (c, r) =>
          let ws1 := (wb1.getSheet sheet_name).setValue r c value
          let wb2 := wb1.updSheet sheet_name ws1
          (.ok ⟨cell, value⟩, some wb2)

/-- `ws.cell(row, column, value=v)`: openpyxl assigns the value only when
it is not `None`; a `None` value leaves the cell's prior value in
place. -/
def wsCellWrite (s : Sheet) (r c : Nat) (v : CellValue) : Sheet :=
  if v = .empty then s else s.setValue r c v

/-- Inner loop of `write_range` over one row of values, counting every
visited value. -/
def writeRowVals (s : Sheet) (r c : Nat) : List CellValue → Sheet × Nat
  | [] => (s, 0)
  | v :: vs =>
    let s1 := wsCellWrite s r c v
    let p := writeRowVals s1 r (c + 1) vs
    (p.1, p.2 + 1)

/-- Outer loop of `write_range` over the rows. -/
def writeRowsVals (s : Sheet) (r c : Nat) : List (List CellValue) → Sheet × Nat
  | [] => (s, 0)
  | row :: rest =>
    let p1 := writeRowVals s r c row
    let p2 := writeRowsVals p1.1 (r + 1) c rest
    (p2.1, p1.2 + p2.2)

structure WriteRangeResult where
  rows : Nat
  written_cells : Nat
deriving DecidableEq, Repr

/-- `write_range`: anchor at `start_cell`, write the 2-D values row-major,
return the number of visited cells. -/
def write_range (ctx : Ctx) (disk : Option Workbook)
    (sheet_name start_cell : String) (values : List (List CellValue))
    (create_if_missing : Bool) :
    Except Err WriteRangeResult × Option Workbook :=
  match safe_path ctx with
  | .error e => (.error e, disk)
  | .ok _ =>
    match load_or_create_workbook disk create_if_missing with
    | .error e => (.error e, disk)
    | .ok (wb, disk1) =>
      match ensure_sheet wb sheet_name create_if_missing with
      | .error e => (.error e, disk1)
      | .ok wb1 =>
        match parseCellRef start_cell with
        | none => (.error .InvalidRangeAddress, disk1)
        | some (c0, r0) =>
          let p := writeRowsVals (wb1.getSheet sheet_name) r0 c0 values
          let wb2 := wb1.updSheet sheet_name p.1
          (.ok ⟨values.length, p.2⟩, some wb2)

/-- `insert_rows`: the 1-based index checks precede everything else,
`_safe_path` included. -/
def insert_rows (ctx : Ctx) (disk : Option Workbook)
    (sheet_name : String) (idx amount : Int) (create_if_missing : Bool) :
    Except Err Unit × Option Workbook :=
  if idx < 1 ∨ amount < 1 then (.error .InvalidIndex, disk)
  else
    match safe_path ctx with
    | .error e => (.error e, disk)
    | .ok _ =>
      match load_or_create_workbook disk create_if_missing with
      | .error e => (.error e, disk)
      | .ok (wb, disk1) =>
        match ensure_sheet wb sheet_name create_if_missing with
        | .error e => (.error e, disk1)
        | .ok wb1 =>
          let ws1 := (wb1.getSheet sheet_name).insertRows idx.toNat amount.toNat
          (.ok (), some (wb1.updSheet sheet_name ws1))

/-- `delete_rows`. -/
def delete_rows (ctx : Ctx) (disk : Option Workbook)
    (sheet_name : String) (idx amount : Int) (create_if_missing : Bool) :
    Except Err Unit × Option Workbook :=
  if idx < 1 ∨ amount < 1 then (.error .InvalidIndex, disk)
  else
    match safe_path ctx with
    | .error e => (.error e, disk)
    | .ok _ =>
      match load_or_create_workbook disk create_if_missing with
      | .error e => (.error e, disk)
      | .ok (wb, disk1) =>
        match ensure_sheet wb sheet_name create_if_missing with
        | .error e => (.error e, disk1)
        | .ok wb1 =>
          let ws1 := (wb1.getSheet sheet_name).deleteRows idx.toNat amount.toNat
          (.ok (), some (wb1.updSheet sheet_name ws1))

/-- `insert_columns`. -/
def insert_columns (ctx : Ctx) (disk : Option Workbook)
    (sheet_name : String) (idx amount : Int) (create_if_missing : Bool) :
    Except Err Unit × Option Workbook :=
  if idx < 1 ∨ amount < 1 then (.error .InvalidIndex, disk)
  else
    match safe_path ctx with
    | .error e => (.error e, disk)
    | .ok _ =>
      match load_or_create_workbook disk create_if_missing with
      | .error e => (.error e, disk)
      | .ok (wb, disk1) =>
        match ensure_sheet wb sheet_name create_if_missing with
        | .error e => (.error e, disk1)
        | .ok wb1 =>
          let ws1 := (wb1.getSheet sheet_name).insertCols idx.toNat amount.toNat
          (.ok (), some (wb1.updSheet sheet_name ws1))

/-- `delete_columns`. -/
def delete_columns (ctx : Ctx) (disk : Option Workbook)
    (sheet_name : String) (idx amount : Int) (create_if_missing : Bool) :
    Except Err Unit × Option Workbook :=
  if idx < 1 ∨ amount < 1 then (.error .InvalidIndex, disk)
  else
    match safe_path ctx with
    | .error e => (.error e, disk)
    | .ok _ =>
      match load_or_create_workbook disk create_if_missing with
      | .error e => (.error e, disk)
      | .ok (wb, disk1) =>
        match ensure_sheet wb sheet_name create_if_missing with
        | .error e => (.error e, disk1)
        | .ok wb1 =>
          let ws1 := (wb1.getSheet sheet_name).deleteCols idx.toNat amount.toNat
          (.ok (), some (wb1.updSheet sheet_name ws1))

/-- `rename_sheet`: validates the proposed new name first (before
`_safe_path` and before the old-name existence check), then fails on a
missing old name, then on a collision, then renames in place and
saves. -/
def rename_sheet (ctx : Ctx) (disk : Option Workbook) (old_name new_name : String) :
    Except Err Unit × Option Workbook :=
  match validate_sheet_name new_name with
  | .error e => (.error e, disk)
  | .ok _ =>
    match safe_path ctx with
    | .error e => (.error e, disk)
    | .ok _ =>
      match load_or_create_workbook disk false with
      | .error e => (.error e, disk)
      | .ok (wb, disk1) =>
        if ¬ old_name ∈ wb.sheetnames then (.error .SheetNotFound, disk1)
        else if new_name ∈ wb.sheetnames then (.error .SheetNameCollision, disk1)
        else (.ok (), some (wb.renameSheet old_name new_name))

structure DeleteSheetResult where
  deleted_sheet : String
  remaining_sheets : List String
deriving DecidableEq, Repr

/-- `delete_sheet`: missing-name check first, then the last-sheet
invariant, then delete and save. -/
def delete_sheet (ctx : Ctx) (disk : Option Workbook) (sheet_name : String) :
    Except Err DeleteSheetResult × Option Workbook :=
  match safe_path ctx with
  | .error e => (.error e, disk)
  | .ok _ =>
    match load_or_create_workbook disk false with
    | .error e => (.error e, disk)
    | .ok (wb, disk1) =>
      if ¬ sheet_name ∈ wb.sheetnames then (.error .SheetNotFound, disk1)
      else if wb.sheetnames.length = 1 then (.error .LastSheetViolation, disk1)
      else
        let wb1 := wb.removeSheet sheet_name
        (.ok ⟨sheet_name, wb1.sheetnames⟩, some wb1)

/-- Loop body of `clear_range`: zero each visited cell's value, counting
only cells whose value was non-empty before. -/
def clearCells (s : Sheet) : List (Nat × Nat) → Sheet × Nat
  | [] => (s, 0)
  | rc :: rest =>
    if (s.get rc.1 rc.2).value ≠ .empty then
      let p := clearCells (s.setValue rc.1 rc.2 .empty) rest
      (p.1, p.2 + 1)
    else clearCells s rest

structure ClearRangeResult where
  cleared_cells : Nat
deriving DecidableEq, Repr

/-- `clear_range`. -/
def clear_range (ctx : Ctx) (disk : Option Workbook)
    (sheet_name cell_range : String) (create_if_missing : Bool) :
    Except Err ClearRangeResult × Option Workbook :=
  match safe_path ctx with
  | .error e => (.error e, disk)
  | .ok _ =>
    match load_or_create_workbook disk create_if_missing with
    | .error e => (.error e, disk)
    | .ok (wb, disk1) =>
      match ensure_sheet wb sheet_name create_if_missing with
      | .error e => (.error e, disk1)
      | .ok wb1 =>
        match parseRange cell_range with
        | none => (.error .InvalidRangeAddress, disk1)
        | some (minC, minR, maxC, maxR) =>
          let p := clearCells (wb1.getSheet sheet_name) (rangeCells minC minR maxC maxR)
          (.ok ⟨p.2⟩, some (wb1.updSheet sheet_name p.1))

/-- The optional formatting arguments of `format_range`. -/
structure FormatReq where
  bold : Option Bool := none
  wrap_text : Option Bool := none
  horizontal : Option String := none
  vertical : Option String := none
  number_format : Option String := none
  fill_hex : Option String := none
deriving DecidableEq, Repr

/-- `fill_hex.strip().lstrip("#")`: whitespace trimmed, then every leading
`#` removed. -/
def dropLeadingHashes : List Char → List Char
  | '#' :: cs => dropLeadingHashes cs
  | cs => cs

def normalizeFill (fx : String) : String :=
  String.mk (dropLeadingHashes (trimChars fx.toList))

/-- The `bold` step of the `format_range` loop body: when `bold` is given,
rebuild the font copying the six fields the source lists (name, sz,
italic, color, underline, strike) and setting `bold`. -/
def applyBold (req : FormatReq) (cell : Cell) : Cell :=
  match req.bold with
  | none => cell
  | some b =>
    { cell with font :=
      { fontName := cell.font.fontName
        sz := cell.font.sz
        italic := cell.font.italic
        color := cell.font.color
        underline := cell.font.underline
        strike := cell.font.strike
        bold := some b } }

/-- The alignment step: when any of `wrap_text`, `horizontal`, `vertical`
is given, rebuild the alignment taking the given components and keeping
the cell's components for the rest. -/
def applyAlign (req : FormatReq) (cell : Cell) : Cell :=
  if req.wrap_text.isSome || req.horizontal.isSome || req.vertical.isSome then
    { cell with alignment :=
      { horizontal := req.horizontal <|> cell.alignment.horizontal
        vertical := req.vertical <|> cell.alignment.vertical
        wrapText := req.wrap_text <|> cell.alignment.wrapText
        textRotation := cell.alignment.textRotation
        shrinkToFit := cell.alignment.shrinkToFit
        indent := cell.alignment.indent } }
  else cell

/-- The number-format step. -/
def applyNumFmt (req : FormatReq) (cell : Cell) : Cell :=
  match req.number_format with
  | none => cell
  | some nf => { cell with number_format := nf }

def isHexDigit (c : Char) : Bool :=
  ('0' ≤ c && c ≤ '9') || ('A' ≤ c && c ≤ 'F') || ('a' ≤ c && c ≤ 'f')

/-- openpyxl's aRGB color validation: a `Color(rgb=...)` value must match
`^([A-Fa-f0-9]{8}|[A-Fa-f0-9]{6})$`, else the library raises
`ValueError("Colors must be aRGB hex values")`. -/
def aRGBValid (s : String) : Bool :=
  (decide (s.length = 6) || decide (s.length = 8)) && s.toList.all isHexDigit

/-- The fill step: the server's own check is on the length after
stripping, raising its `ValueError` when six characters do not remain;
`PatternFill(fill_type="solid", fgColor=color.upper())` then applies the
library's aRGB validation, rejecting non-hexadecimal characters.  Both
failures surface to the caller as a failed call of the `InvalidColor`
kind of the taxonomy, and on success the uppercased color is stored as a
solid fill. -/
def applyFill (req : FormatReq) (cell : Cell) : Except Err Cell :=
  match req.fill_hex with
  | none => .ok cell
  | some fx =>
    let color := normalizeFill fx
    if color.length ≠ 6 then .error .InvalidColor
    else if ¬ aRGBValid (upperString color) then .error .InvalidColor
    else .ok { cell with fill := some (upperString color) }

/-- Per-cell body of the `format_range` loop, in source order: bold,
alignment, number format, fill. -/
def applyFormat (req : FormatReq) (cell : Cell) : Except Err Cell :=
  applyFill req (applyNumFmt req (applyAlign req (applyBold req cell)))

/-- The `format_range` loop over the cells of the range, counting every
visited cell. -/
def formatCells (req : FormatReq) (s : Sheet) : List (Nat × Nat) → Except Err (Sheet × Nat)
  | [] => .ok (s, 0)
  | rc :: rest =>
    match applyFormat req (s.get rc.1 rc.2) with
    | .error e => .error e
    | .ok c1 =>
      match formatCells req (s.setCell rc.1 rc.2 c1) rest with
      | .error e => .error e
      | .ok p => .ok (p.1, p.2 + 1)

structure FormatRangeResult where
  updated_cells : Nat
deriving DecidableEq, Repr

/-- `format_range`. -/
def format_range (ctx : Ctx) (disk : Option Workbook)
    (sheet_name cell_range : String) (req : FormatReq) (create_if_missing : Bool) :
    Except Err FormatRangeResult × Option Workbook :=
  match safe_path ctx with
  | .error e => (.error e, disk)
  | .ok _ =>
    match load_or_create_workbook disk create_if_missing with
    | .error e => (.error e, disk)
    | .ok (wb, disk1) =>
      match ensure_sheet wb sheet_name create_if_missing with
      | .error e => (.error e, disk1)
      | .ok wb1 =>
        match parseRange cell_range with
        | none => (.error .InvalidRangeAddress, disk1)
        | some (minC, minR, maxC, maxR) =>
          match formatCells req (wb1.getSheet sheet_name) (rangeCells minC minR maxC maxR) with
          | .error e => (.error e, disk1)
          | .ok p => (.ok ⟨p.2⟩, some (wb1.updSheet sheet_name p.1))

/-! The tool dispatcher: every registered tool with its arguments, and a
single entry point invoking the corresponding operation. -/

inductive ToolCall where
  | list_sheets (create_if_missing : Bool)
  | read_range (sheet_name cell_range : String) (create_if_missing : Bool)
  | write_cell (sheet_name cell : String) (value : CellValue) (create_if_missing : Bool)
  | write_range (sheet_name start_cell : String) (values : List (List CellValue))
      (create_if_missing : Bool)
  | insert_rows (sheet_name : String) (idx amount : Int) (create_if_missing : Bool)
  | delete_rows (sheet_name : String) (idx amount : Int) (create_if_missing : Bool)
  | insert_columns (sheet_name : String) (idx amount : Int) (create_if_missing : Bool)
  | delete_columns (sheet_name : String) (idx amount : Int) (create_if_missing : Bool)
  | rename_sheet (old_name new_name : String)
  | delete_sheet (sheet_name : String)
  | clear_range (sheet_name cell_range : String) (create_if_missing : Bool)
  | format_range (sheet_name cell_range : String) (req : FormatReq) (create_if_missing : Bool)
deriving DecidableEq, Repr

inductive ToolResult where
  | list_sheets (r : ListSheetsResult)
  | read_range (r : ReadRangeResult)
  | write_cell (r : WriteCellResult)
  | write_range (r : WriteRangeResult)
  | structural
  | rename_sheet
  | delete_sheet (r : DeleteSheetResult)
  | clear_range (r : ClearRangeResult)
  | format_range (r : FormatRangeResult)
deriving DecidableEq, Repr

/-- Invoke one tool against the disk content at the resolved path. -/
def dispatch (ctx : Ctx) (disk : Option Workbook) :
    ToolCall → Except Err ToolResult × Option Workbook
  | .list_sheets cim =>
    match list_sheets ctx disk cim with
    | (.error e, d) => (.error e, d)
    | (.ok r, d) => (.ok (.list_sheets r), d)
  | .read_range sn rng cim =>
    match read_range ctx disk sn rng cim with
    | (.error e, d) => (.error e, d)
    | (.ok r, d) => (.ok (.read_range r), d)
  | .write_cell sn cell v cim =>
    match write_cell ctx disk sn cell v cim with
    | (.error e, d) => (.error e, d)
    | (.ok r, d) => (.ok (.write_cell r), d)
  | .write_range sn start vals cim =>
    match write_range ctx disk sn start vals cim with
    | (.error e, d) => (.error e, d)
    | (.ok r, d) => (.ok (.write_range r), d)
  | .insert_rows sn idx amount cim =>
    match insert_rows ctx disk sn idx amount cim with
    | (.error e, d) => (.error e, d)
    | (.ok _, d) => (.ok .structural, d)
  | .delete_rows sn idx amount cim =>
    match delete_rows ctx disk sn idx amount cim with
    | (.error e, d) => (.error e, d)
    | (.ok _, d) => (.ok .structural, d)
  | .insert_columns sn idx amount cim =>
    match insert_columns ctx disk sn idx amount cim with
    | (.error e, d) => (.error e, d)
    | (.ok _, d) => (.ok .structural, d)
  | .delete_columns sn idx amount cim =>
    match delete_columns ctx disk sn idx amount cim with
    | (.error e, d) => (.error e, d)
    | (.ok _, d) => (.ok .structural, d)
  | .rename_sheet old new =>
    match rename_sheet ctx disk old new with
    | (.error e, d) => (.error e, d)
    | (.ok _, d) => (.ok .rename_sheet, d)
  | .delete_sheet sn =>
    match delete_sheet ctx disk sn with
    | (.error e, d) => (.error e, d)
    | (.ok r, d) => (.ok (.delete_sheet r), d)
  | .clear_range sn rng cim =>
    match clear_range ctx disk sn rng cim with
    | (.error e, d) => (.error e, d)
    | (.ok r, d) => (.ok (.clear_range r), d)
  | .format_range sn rng req cim =>
    match format_range ctx disk sn rng req cim with
    | (.error e, d) => (.error e, d)
    | (.ok r, d) => (.ok (.format_range r), d)

/-- The argument checks a tool performs before `_safe_path` runs: the
structural operations validate `idx`/`amount` first, and `rename_sheet`
validates the proposed new name first. -/
def earlyError : ToolCall → Option Err
  | .insert_rows _ idx amount _ | .delete_rows _ idx amount _
  | .insert_columns _ idx amount _ | .delete_columns _ idx amount _ =>
    if idx < 1 ∨ amount < 1 then some .InvalidIndex else none
  | .rename_sheet _ new => if validSheetName new then none else some .InvalidSheetName
  | _ => none

/-! Basic lemmas about sheets and workbooks. -/

theorem Sheet.get_setCell_self (s : Sheet) (r c : Nat) (cell : Cell) :
    (s.setCell r c cell).get r c = cell := by
  simp [Sheet.get, Sheet.setCell]

theorem Sheet.get_setCell_ne (s : Sheet) (r c r' c' : Nat) (cell : Cell)
    (h : ¬ (r' = r ∧ c' = c)) : (s.setCell r c cell).get r' c' = s.get r' c' := by
  simp [Sheet.get, Sheet.setCell, h]

theorem Sheet.get_setValue_self (s : Sheet) (r c : Nat) (v : CellValue) :
    (s.setValue r c v).get r c = { s.get r c with value := v } := by
  simp [Sheet.get, Sheet.setValue]

theorem Sheet.get_setValue_ne (s : Sheet) (r c r' c' : Nat) (v : CellValue)
    (h : ¬ (r' = r ∧ c' = c)) : (s.setValue r c v).get r' c' = s.get r' c' := by
  simp [Sheet.get, Sheet.setValue, h]

theorem Workbook.sheetnames_updSheet (wb : Workbook) (n : String) (s : Sheet) :
    (wb.updSheet n s).sheetnames = wb.sheetnames := by
  simp only [Workbook.sheetnames, Workbook.updSheet, List.map_map]
  congr 1
  funext p
  by_cases h : p.1 = n <;> simp [h]

theorem find?_upd_list (l : List (String × Sheet)) (n : String) (s : Sheet)
    (h : n ∈ l.map Prod.fst) :
    (l.map (fun p => if p.1 = n then (p.1, s) else p)).find? (fun p => p.1 = n)
      = some (n, s) := by
  induction l with
  | nil => simp at h
  | cons p l ih =>
    by_cases hp : p.1 = n
    · have hhd : (if p.1 = n then (p.1, s) else p) = (n, s) := by simp [hp]
      simp only [List.map_cons, hhd]
      exact List.find?_cons_of_pos _ (by simp)
    · simp only [List.map_cons, if_neg hp]
      rw [List.find?_cons_of_neg _ (by simp [hp])]
      simp only [List.map_cons, List.mem_cons] at h
      exact ih (h.resolve_left (fun hh => hp hh.symm))

theorem find?_none_list (l : List (String × Sheet)) (n : String)
    (h : ¬ n ∈ l.map Prod.fst) : l.find? (fun p => p.1 = n) = none := by
  induction l with
  | nil => rfl
  | cons p l ih =>
    simp only [List.map_cons, List.mem_cons] at h
    push_neg at h
    rw [List.find?_cons_of_neg _ (by simp; exact fun hh => h.1 hh.symm)]
    exact ih h.2

theorem Workbook.getSheet_updSheet (wb : Workbook) (n : String) (s : Sheet)
    (h : n ∈ wb.sheetnames) : (wb.updSheet n s).getSheet n = s := by
  simp [Workbook.getSheet, Workbook.find?, Workbook.updSheet,
    find?_upd_list wb.sheets n s h]

theorem Workbook.sheetnames_createSheet (wb : Workbook) (n : String) :
    (wb.createSheet n).sheetnames = wb.sheetnames ++ [n] := by
  simp [Workbook.createSheet, Workbook.sheetnames]

theorem Workbook.getSheet_not_mem (wb : Workbook) (n : String)
    (h : ¬ n ∈ wb.sheetnames) : wb.getSheet n = emptySheet := by
  simp [Workbook.getSheet, Workbook.find?, find?_none_list wb.sheets n h]

theorem Workbook.getSheet_createSheet (wb : Workbook) (n : String)
    (h : ¬ n ∈ wb.sheetnames) : (wb.createSheet n).getSheet n = emptySheet := by
  simp only [Workbook.getSheet, Workbook.find?, Workbook.createSheet]
  rw [List.find?_append, find?_none_list wb.sheets n h]
  simp [List.find?]

/-- `_ensure_sheet` succeeds exactly when the name validates and the sheet
either exists or may be created; the returned workbook contains the sheet,
reads of the sheet agree with the original workbook (a created sheet reads
as empty, matching the `getD emptySheet` default), and existing names are
preserved. -/
theorem ensure_sheet_ok (wb : Workbook) (n : String) (cim : Bool)
    (hv : validSheetName n = true) (h : n ∈ wb.sheetnames ∨ cim = true) :
    ∃ wb1, ensure_sheet wb n cim = .ok wb1 ∧ wb1.getSheet n = wb.getSheet n ∧
      n ∈ wb1.sheetnames := by
  by_cases hm : n ∈ wb.sheetnames
  · exact ⟨wb, by simp [ensure_sheet, validate_sheet_name, hv, hm], rfl, hm⟩
  · rcases h with h | h
    · exact absurd h hm
    · refine ⟨wb.createSheet n, ?_, ?_, ?_⟩
      · simp [ensure_sheet, validate_sheet_name, hv, hm, h]
      · rw [Workbook.getSheet_createSheet wb n hm, Workbook.getSheet_not_mem wb n hm]
      · simp [Workbook.sheetnames_createSheet]

/-! Lemmas about ranges and the read grid. -/

theorem rangeList_getElem? (lo hi i : Nat) (h1 : lo ≤ i) (h2 : i ≤ hi) :
    (rangeList lo hi)[i - lo]? = some i := by
  have hlt : i - lo < hi + 1 - lo := by omega
  simp [rangeList, List.getElem?_map, List.getElem?_range, hlt]
  omega

theorem mem_rangeList (lo hi i : Nat) : i ∈ rangeList lo hi ↔ lo ≤ i ∧ i ≤ hi := by
  simp only [rangeList, List.mem_map, List.mem_range]
  constructor
  · rintro ⟨j, hj, rfl⟩; omega
  · rintro ⟨h1, h2⟩; exact ⟨i - lo, by omega, by omega⟩

theorem mem_rangeCells (minC minR maxC maxR r c : Nat) :
    (r, c) ∈ rangeCells minC minR maxC maxR ↔
      minR ≤ r ∧ r ≤ maxR ∧ minC ≤ c ∧ c ≤ maxC := by
  simp only [rangeCells, List.mem_flatMap, List.mem_map, Prod.mk.injEq]
  constructor
  · rintro ⟨r', hr', c', hc', rfl, rfl⟩
    rw [mem_rangeList] at hr' hc'
    exact ⟨hr'.1, hr'.2, hc'.1, hc'.2⟩
  · rintro ⟨h1, h2, h3, h4⟩
    exact ⟨r, (mem_rangeList _ _ _).2 ⟨h1, h2⟩, c, (mem_rangeList _ _ _).2 ⟨h3, h4⟩, rfl, rfl⟩

theorem readGrid_getD (ws : Sheet) (minC minR maxC maxR r c : Nat)
    (hr1 : minR ≤ r) (hr2 : r ≤ maxR) (hc1 : minC ≤ c) (hc2 : c ≤ maxC) :
    ((readGrid ws minC minR maxC maxR).getD (r - minR) []).getD (c - minC) .empty
      = (ws.get r c).value := by
  have h1 : (readGrid ws minC minR maxC maxR)[r - minR]? =
      some ((rangeList minC maxC).map (fun c => (ws.get r c).value)) := by
    simp [readGrid, List.getElem?_map, rangeList_getElem? minR maxR r hr1 hr2]
  have h2 : ((rangeList minC maxC).map (fun c => (ws.get r c).value))[c - minC]? =
      some ((ws.get r c).value) := by
    simp [List.getElem?_map, rangeList_getElem? minC maxC c hc1 hc2]
  simp [List.getD_eq_getElem?_getD, h1, h2]

/-! Lemmas about the `write_range` loops. -/

theorem writeRowVals_snd (vs : List CellValue) : ∀ (s : Sheet) (r c : Nat),
    (writeRowVals s r c vs).2 = vs.length := by
  induction vs with
  | nil => intro s r c; rfl
  | cons v vs ih => intro s r c; simp [writeRowVals, ih]

theorem writeRowsVals_snd (vals : List (List CellValue)) : ∀ (s : Sheet) (r c : Nat),
    (writeRowsVals s r c vals).2 = (vals.map List.length).sum := by
  induction vals with
  | nil => intro s r c; rfl
  | cons row rest ih => intro s r c; simp [writeRowsVals, ih, writeRowVals_snd]

theorem wsCellWrite_get_ne (s : Sheet) (r c r' c' : Nat) (v : CellValue)
    (h : ¬ (r' = r ∧ c' = c)) : (wsCellWrite s r c v).get r' c' = s.get r' c' := by
  unfold wsCellWrite
  by_cases hv : v = .empty
  · simp [hv]
  · simp [hv, Sheet.get_setValue_ne _ _ _ _ _ _ h]

theorem writeRowVals_get_frame (vs : List CellValue) : ∀ (s : Sheet) (r c r' c' : Nat),
    (r' ≠ r ∨ c' < c) → ((writeRowVals s r c vs).1).get r' c' = s.get r' c' := by
  induction vs with
  | nil => intro s r c r' c' _; rfl
  | cons v vs ih =>
    intro s r c r' c' h
    show ((writeRowVals (wsCellWrite s r c v) r (c + 1) vs).1).get r' c' = s.get r' c'
    rw [ih _ r (c + 1) r' c' (by omega)]
    exact wsCellWrite_get_ne s r c r' c' v (by omega)

theorem writeRowVals_getD (vs : List CellValue) : ∀ (s : Sheet) (r c j : Nat),
    j < vs.length → vs.getD j .empty ≠ .empty →
    (((writeRowVals s r c vs).1).get r (c + j)).value = vs.getD j .empty := by
  induction vs with
  | nil => intro s r c j hj _; simp at hj
  | cons v vs ih =>
    intro s r c j hj hne
    match j with
    | 0 =>
      simp only [List.getD_cons_zero] at hne ⊢
      show (((writeRowVals (wsCellWrite s r c v) r (c + 1) vs).1).get r (c + 0)).value = v
      rw [writeRowVals_get_frame vs _ r (c + 1) r (c + 0) (by omega)]
      unfold wsCellWrite
      rw [if_neg hne]
      simp [Sheet.get_setValue_self]
    | j + 1 =>
      simp only [List.getD_cons_succ] at hne ⊢
      have : c + (j + 1) = (c + 1) + j := by omega
      rw [this]
      exact ih (wsCellWrite s r c v) r (c + 1) j (by simpa using hj) hne

theorem writeRowsVals_get_frame (vals : List (List CellValue)) :
    ∀ (s : Sheet) (r c r' c' : Nat), r' < r →
    ((writeRowsVals s r c vals).1).get r' c' = s.get r' c' := by
  induction vals with
  | nil => intro s r c r' c' _; rfl
  | cons row rest ih =>
    intro s r c r' c' h
    show ((writeRowsVals (writeRowVals s r c row).1 (r + 1) c rest).1).get r' c'
      = s.get r' c'
    rw [ih _ (r + 1) c r' c' (by omega)]
    exact writeRowVals_get_frame row s r c r' c' (Or.inl (by omega))

theorem writeRowsVals_getD (vals : List (List CellValue)) :
    ∀ (s : Sheet) (r c i j : Nat), i < vals.length →
    j < (vals.getD i []).length → (vals.getD i []).getD j .empty ≠ .empty →
    (((writeRowsVals s r c vals).1).get (r + i) (c + j)).value
      = (vals.getD i []).getD j .empty := by
  induction vals with
  | nil => intro s r c i j hi _ _; simp at hi
  | cons row rest ih =>
    intro s r c i j hi hj hne
    match i with
    | 0 =>
      simp only [List.getD_cons_zero] at hj hne ⊢
      show (((writeRowsVals (writeRowVals s r c row).1 (r + 1) c rest).1).get
        (r + 0) (c + j)).value = row.getD j .empty
      rw [writeRowsVals_get_frame rest _ (r + 1) c (r + 0) (c + j) (by omega)]
      exact writeRowVals_getD row s r c j hj hne
    | i + 1 =>
      simp only [List.getD_cons_succ] at hj hne ⊢
      have : r + (i + 1) = (r + 1) + i := by omega
      rw [this]
      exact ih (writeRowVals s r c row).1 (r + 1) c i j (by simpa using hi) hj hne

/-- A rectangular input has `rows × columns` total cells. -/
theorem sum_map_length_rect (vals : List (List CellValue)) (cols : Nat)
    (h : ∀ row ∈ vals, row.length = cols) :
    (vals.map List.length).sum = vals.length * cols := by
  induction vals with
  | nil => simp
  | cons row rest ih =>
    simp only [List.map_cons, List.sum_cons, List.length_cons]
    rw [h row (by simp), ih (fun r hr => h r (by simp [hr]))]
    ring

/-! Lemmas about the `clear_range` loop. -/

theorem clearCells_frame (cells : List (Nat × Nat)) : ∀ (s : Sheet) (rc : Nat × Nat),
    rc ∉ cells → ((clearCells s cells).1).get rc.1 rc.2 = s.get rc.1 rc.2 := by
  induction cells with
  | nil => intro s rc _; rfl
  | cons a rest ih =>
    intro s rc h
    have hne : rc ≠ a := fun hh => h (by simp [hh])
    have hrest : rc ∉ rest := fun hh => h (by simp [hh])
    unfold clearCells
    by_cases hv : (s.get a.1 a.2).value ≠ .empty
    · rw [if_pos hv]
      show ((clearCells (s.setValue a.1 a.2 .empty) rest).1).get rc.1 rc.2 = s.get rc.1 rc.2
      rw [ih _ rc hrest]
      exact Sheet.get_setValue_ne _ _ _ _ _ _
        (fun hh => hne (Prod.ext hh.1 hh.2))
    · rw [if_neg hv]
      exact ih s rc hrest

theorem clearCells_val (cells : List (Nat × Nat)) : ∀ (s : Sheet) (rc : Nat × Nat),
    rc ∈ cells → (((clearCells s cells).1).get rc.1 rc.2).value = .empty := by
  induction cells with
  | nil => intro s rc h; simp at h
  | cons a rest ih =>
    intro s rc h
    by_cases hrest : rc ∈ rest
    · unfold clearCells
      by_cases hv : (s.get a.1 a.2).value ≠ .empty
      · rw [if_pos hv]
        exact ih _ rc hrest
      · rw [if_neg hv]
        exact ih s rc hrest
    · have ha : rc = a := by
        rcases List.mem_cons.1 h with hh | hh
        · exact hh
        · exact absurd hh hrest
      subst ha
      unfold clearCells
      by_cases hv : (s.get rc.1 rc.2).value ≠ .empty
      · rw [if_pos hv]
        show (((clearCells (s.setValue rc.1 rc.2 .empty) rest).1).get rc.1 rc.2).value
          = CellValue.empty
        rw [clearCells_frame rest _ rc hrest]
        simp [Sheet.get_setValue_self]
      · rw [if_neg hv]
        rw [clearCells_frame rest s rc hrest]
        simpa using hv

theorem clearCells_of_allEmpty (cells : List (Nat × Nat)) : ∀ (s : Sheet),
    (∀ rc ∈ cells, (s.get rc.1 rc.2).value = .empty) → clearCells s cells = (s, 0) := by
  induction cells with
  | nil => intro s _; rfl
  | cons a rest ih =>
    intro s h
    unfold clearCells
    have ha : (s.get a.1 a.2).value = .empty := h a (by simp)
    rw [if_neg (by simp [ha])]
    exact ih s (fun rc hrc => h rc (by simp [hrc]))

/-! Lemmas about the `format_range` loop. -/

theorem applyBold_value (req : FormatReq) (cell : Cell) :
    (applyBold req cell).value = cell.value := by
  unfold applyBold; cases req.bold <;> rfl

theorem applyBold_alignment (req : FormatReq) (cell : Cell) :
    (applyBold req cell).alignment = cell.alignment := by
  unfold applyBold; cases req.bold <;> rfl

theorem applyBold_number_format (req : FormatReq) (cell : Cell) :
    (applyBold req cell).number_format = cell.number_format := by
  unfold applyBold; cases req.bold <;> rfl

theorem applyBold_fill (req : FormatReq) (cell : Cell) :
    (applyBold req cell).fill = cell.fill := by
  unfold applyBold; cases req.bold <;> rfl

theorem applyBold_font_of_none (req : FormatReq) (cell : Cell) (hb : req.bold = none) :
    (applyBold req cell).font = cell.font := by
  unfold applyBold; rw [hb]

theorem applyAlign_value (req : FormatReq) (cell : Cell) :
    (applyAlign req cell).value = cell.value := by
  unfold applyAlign; split <;> rfl

theorem applyAlign_font (req : FormatReq) (cell : Cell) :
    (applyAlign req cell).font = cell.font := by
  unfold applyAlign; split <;> rfl

theorem applyAlign_number_format (req : FormatReq) (cell : Cell) :
    (applyAlign req cell).number_format = cell.number_format := by
  unfold applyAlign; split <;> rfl

theorem applyAlign_fill (req : FormatReq) (cell : Cell) :
    (applyAlign req cell).fill = cell.fill := by
  unfold applyAlign; split <;> rfl

theorem applyAlign_wrap_of_none (req : FormatReq) (cell : Cell)
    (hw : req.wrap_text = none) :
    (applyAlign req cell).alignment.wrapText = cell.alignment.wrapText := by
  unfold applyAlign; split <;> simp [hw]

theorem applyAlign_horizontal_of_none (req : FormatReq) (cell : Cell)
    (hh : req.horizontal = none) :
    (applyAlign req cell).alignment.horizontal = cell.alignment.horizontal := by
  unfold applyAlign; split <;> simp [hh]

theorem applyAlign_vertical_of_none (req : FormatReq) (cell : Cell)
    (hv : req.vertical = none) :
    (applyAlign req cell).alignment.vertical = cell.alignment.vertical := by
  unfold applyAlign; split <;> simp [hv]

theorem applyNumFmt_value (req : FormatReq) (cell : Cell) :
    (applyNumFmt req cell).value = cell.value := by
  unfold applyNumFmt; cases req.number_format <;> rfl

theorem applyNumFmt_font (req : FormatReq) (cell : Cell) :
    (applyNumFmt req cell).font = cell.font := by
  unfold applyNumFmt; cases req.number_format <;> rfl

theorem applyNumFmt_alignment (req : FormatReq) (cell : Cell) :
    (applyNumFmt req cell).alignment = cell.alignment := by
  unfold applyNumFmt; cases req.number_format <;> rfl

theorem applyNumFmt_fill (req : FormatReq) (cell : Cell) :
    (applyNumFmt req cell).fill = cell.fill := by
  unfold applyNumFmt; cases req.number_format <;> rfl

theorem applyNumFmt_of_none (req : FormatReq) (cell : Cell)
    (hn : req.number_format = none) :
    (applyNumFmt req cell).number_format = cell.number_format := by
  unfold applyNumFmt; rw [hn]

theorem applyFill_value (req : FormatReq) (cell c1 : Cell)
    (h : applyFill req cell = .ok c1) : c1.value = cell.value := by
  unfold applyFill at h
  rcases hf : req.fill_hex with _ | fx <;> rw [hf] at h <;> simp only [] at h
  · cases h; rfl
  · by_cases hlen : (normalizeFill fx).length ≠ 6
    · rw [if_pos hlen] at h; cases h
    · rw [if_neg hlen] at h
      by_cases hhex : ¬ aRGBValid (upperString (normalizeFill fx))
      · rw [if_pos hhex] at h; cases h
      · rw [if_neg hhex] at h; cases h; rfl

theorem applyFill_font (req : FormatReq) (cell c1 : Cell)
    (h : applyFill req cell = .ok c1) : c1.font = cell.font := by
  unfold applyFill at h
  rcases hf : req.fill_hex with _ | fx <;> rw [hf] at h <;> simp only [] at h
  · cases h; rfl
  · by_cases hlen : (normalizeFill fx).length ≠ 6
    · rw [if_pos hlen] at h; cases h
    · rw [if_neg hlen] at h
      by_cases hhex : ¬ aRGBValid (upperString (normalizeFill fx))
      · rw [if_pos hhex] at h; cases h
      · rw [if_neg hhex] at h; cases h; rfl

theorem applyFill_alignment (req : FormatReq) (cell c1 : Cell)
    (h : applyFill req cell = .ok c1) : c1.alignment = cell.alignment := by
  unfold applyFill at h
  rcases hf : req.fill_hex with _ | fx <;> rw [hf] at h <;> simp only [] at h
  · cases h; rfl
  · by_cases hlen : (normalizeFill fx).length ≠ 6
    · rw [if_pos hlen] at h; cases h
    · rw [if_neg hlen] at h
      by_cases hhex : ¬ aRGBValid (upperString (normalizeFill fx))
      · rw [if_pos hhex] at h; cases h
      · rw [if_neg hhex] at h; cases h; rfl

theorem applyFill_number_format (req : FormatReq) (cell c1 : Cell)
    (h : applyFill req cell = .ok c1) : c1.number_format = cell.number_format := by
  unfold applyFill at h
  rcases hf : req.fill_hex with _ | fx <;> rw [hf] at h <;> simp only [] at h
  · cases h; rfl
  · by_cases hlen : (normalizeFill fx).length ≠ 6
    · rw [if_pos hlen] at h; cases h
    · rw [if_neg hlen] at h
      by_cases hhex : ¬ aRGBValid (upperString (normalizeFill fx))
      · rw [if_pos hhex] at h; cases h
      · rw [if_neg hhex] at h; cases h; rfl

theorem applyFill_of_none (req : FormatReq) (cell : Cell) (hf : req.fill_hex = none) :
    applyFill req cell = .ok cell := by
  unfold applyFill; rw [hf]

theorem applyFill_bad (req : FormatReq) (cell : Cell) (fx : String)
    (hf : req.fill_hex = some fx) (hlen : (normalizeFill fx).length ≠ 6) :
    applyFill req cell = .error .InvalidColor := by
  unfold applyFill; rw [hf]; simp only []; rw [if_pos hlen]

theorem applyFill_bad_hex (req : FormatReq) (cell : Cell) (fx : String)
    (hf : req.fill_hex = some fx) (hlen : (normalizeFill fx).length = 6)
    (hhex : aRGBValid (upperString (normalizeFill fx)) = false) :
    applyFill req cell = .error .InvalidColor := by
  unfold applyFill; rw [hf]
  simp only []
  rw [if_neg (by omega : ¬ (normalizeFill fx).length ≠ 6)]
  rw [if_pos (by simp [hhex])]

theorem applyFill_good (req : FormatReq) (cell : Cell) (fx : String)
    (hf : req.fill_hex = some fx) (hlen : (normalizeFill fx).length = 6)
    (hhex : aRGBValid (upperString (normalizeFill fx)) = true) :
    applyFill req cell = .ok { cell with fill := some (upperString (normalizeFill fx)) } := by
  unfold applyFill; rw [hf]
  simp only []
  rw [if_neg (by omega : ¬ (normalizeFill fx).length ≠ 6)]
  rw [if_neg (by simp [hhex])]

theorem applyFormat_bad (req : FormatReq) (cell : Cell) (fx : String)
    (hf : req.fill_hex = some fx)
    (hbad : ¬ ((normalizeFill fx).length = 6 ∧
      aRGBValid (upperString (normalizeFill fx)) = true)) :
    applyFormat req cell = .error .InvalidColor := by
  unfold applyFormat
  by_cases hlen : (normalizeFill fx).length = 6
  · have hhex : aRGBValid (upperString (normalizeFill fx)) = false := by
      cases hax : aRGBValid (upperString (normalizeFill fx))
      · rfl
      · exact absurd ⟨hlen, hax⟩ hbad
    exact applyFill_bad_hex req _ fx hf hlen hhex
  · exact applyFill_bad req _ fx hf hlen

theorem applyFormat_ok_of_fillable (req : FormatReq) (cell : Cell)
    (h : req.fill_hex = none ∨
      ∃ fx, req.fill_hex = some fx ∧ (normalizeFill fx).length = 6 ∧
        aRGBValid (upperString (normalizeFill fx)) = true) :
    ∃ c1, applyFormat req cell = .ok c1 := by
  unfold applyFormat
  rcases h with hf | ⟨fx, hf, hlen, hhex⟩
  · exact ⟨_, applyFill_of_none req _ hf⟩
  · exact ⟨_, applyFill_good req _ fx hf hlen hhex⟩

theorem applyFormat_fill_target (req : FormatReq) (cell c1 : Cell) (fx : String)
    (hf : req.fill_hex = some fx) (h : applyFormat req cell = .ok c1) :
    c1.fill = some (upperString (normalizeFill fx)) := by
  unfold applyFormat at h
  by_cases hlen : (normalizeFill fx).length ≠ 6
  · rw [applyFill_bad req _ fx hf hlen] at h; cases h
  · by_cases hhex : aRGBValid (upperString (normalizeFill fx)) = true
    · rw [applyFill_good req _ fx hf (by omega) hhex] at h; cases h; rfl
    · rw [applyFill_bad_hex req _ fx hf (by omega) (by simpa using hhex)] at h
      cases h

theorem applyFormat_font_of_none (req : FormatReq) (cell c1 : Cell)
    (hb : req.bold = none) (h : applyFormat req cell = .ok c1) :
    c1.font = cell.font := by
  unfold applyFormat at h
  rw [applyFill_font req _ _ h, applyNumFmt_font, applyAlign_font,
    applyBold_font_of_none req cell hb]

theorem applyFormat_wrap_of_none (req : FormatReq) (cell c1 : Cell)
    (hw : req.wrap_text = none) (h : applyFormat req cell = .ok c1) :
    c1.alignment.wrapText = cell.alignment.wrapText := by
  unfold applyFormat at h
  rw [applyFill_alignment req _ _ h, applyNumFmt_alignment,
    applyAlign_wrap_of_none req _ hw, applyBold_alignment]

theorem applyFormat_horizontal_of_none (req : FormatReq) (cell c1 : Cell)
    (hh : req.horizontal = none) (h : applyFormat req cell = .ok c1) :
    c1.alignment.horizontal = cell.alignment.horizontal := by
  unfold applyFormat at h
  rw [applyFill_alignment req _ _ h, applyNumFmt_alignment,
    applyAlign_horizontal_of_none req _ hh, applyBold_alignment]

theorem applyFormat_vertical_of_none (req : FormatReq) (cell c1 : Cell)
    (hv : req.vertical = none) (h : applyFormat req cell = .ok c1) :
    c1.alignment.vertical = cell.alignment.vertical := by
  unfold applyFormat at h
  rw [applyFill_alignment req _ _ h, applyNumFmt_alignment,
    applyAlign_vertical_of_none req _ hv, applyBold_alignment]

theorem applyFormat_number_format_of_none (req : FormatReq) (cell c1 : Cell)
    (hn : req.number_format = none) (h : applyFormat req cell = .ok c1) :
    c1.number_format = cell.number_format := by
  unfold applyFormat at h
  rw [applyFill_number_format req _ _ h, applyNumFmt_of_none req _ hn,
    applyAlign_number_format, applyBold_number_format]

theorem applyFormat_fill_of_none (req : FormatReq) (cell c1 : Cell)
    (hf : req.fill_hex = none) (h : applyFormat req cell = .ok c1) :
    c1.fill = cell.fill := by
  unfold applyFormat at h
  rw [applyFill_of_none req _ hf] at h
  cases h
  rw [applyNumFmt_fill, applyAlign_fill, applyBold_fill]

theorem applyFormat_value (req : FormatReq) (cell c1 : Cell)
    (h : applyFormat req cell = .ok c1) : c1.value = cell.value := by
  unfold applyFormat at h
  rw [applyFill_value req _ _ h, applyNumFmt_value, applyAlign_value, applyBold_value]

theorem formatCells_frame (req : FormatReq) (cells : List (Nat × Nat)) :
    ∀ (s : Sheet) (p : Sheet × Nat), formatCells req s cells = .ok p →
    ∀ rc : Nat × Nat, rc ∉ cells → (p.1).get rc.1 rc.2 = s.get rc.1 rc.2 := by
  induction cells with
  | nil => intro s p h rc _; cases h; rfl
  | cons a rest ih =>
    intro s p h rc hrc
    have hne : rc ≠ a := fun hh => hrc (by simp [hh])
    have hrest : rc ∉ rest := fun hh => hrc (by simp [hh])
    unfold formatCells at h
    rcases ha : applyFormat req (s.get a.1 a.2) with e | c1 <;> rw [ha] at h <;>
      simp only [] at h
    · cases h
    · rcases hr : formatCells req (s.setCell a.1 a.2 c1) rest with e | q <;>
        rw [hr] at h <;> simp only [] at h
      · cases h
      · cases h
        rw [ih _ q hr rc hrest]
        exact Sheet.get_setCell_ne _ _ _ _ _ _ (fun hh => hne (Prod.ext hh.1 hh.2))

/-- Any cell-level observation that every successful `applyFormat` leaves
unchanged is preserved across the whole `format_range` loop, at every
coordinate. -/
theorem formatCells_preserves {α : Type} (req : FormatReq) (read : Cell → α)
    (hread : ∀ cell c1, applyFormat req cell = .ok c1 → read c1 = read cell)
    (cells : List (Nat × Nat)) :
    ∀ (s : Sheet) (p : Sheet × Nat), formatCells req s cells = .ok p →
    ∀ r c : Nat, read ((p.1).get r c) = read (s.get r c) := by
  induction cells with
  | nil => intro s p h r c; cases h; rfl
  | cons a rest ih =>
    intro s p h r c
    unfold formatCells at h
    rcases ha : applyFormat req (s.get a.1 a.2) with e | c1 <;> rw [ha] at h <;>
      simp only [] at h
    · cases h
    · rcases hr : formatCells req (s.setCell a.1 a.2 c1) rest with e | q <;>
        rw [hr] at h <;> simp only [] at h
      · cases h
      · cases h
        rw [ih _ q hr r c]
        by_cases hrc : r = a.1 ∧ c = a.2
        · rw [hrc.1, hrc.2, Sheet.get_setCell_self]
          exact hread _ _ ha
        · rw [Sheet.get_setCell_ne _ _ _ _ _ _ hrc]

theorem formatCells_count (req : FormatReq) (cells : List (Nat × Nat)) :
    ∀ (s : Sheet) (p : Sheet × Nat), formatCells req s cells = .ok p →
    p.2 = cells.length := by
  induction cells with
  | nil => intro s p h; cases h; rfl
  | cons a rest ih =>
    intro s p h
    unfold formatCells at h
    rcases ha : applyFormat req (s.get a.1 a.2) with e | c1 <;> rw [ha] at h <;>
      simp only [] at h
    · cases h
    · rcases hr : formatCells req (s.setCell a.1 a.2 c1) rest with e | q <;>
        rw [hr] at h <;> simp only [] at h
      · cases h
      · cases h
        simp [ih _ q hr]

theorem formatCells_ok (req : FormatReq)
    (h : req.fill_hex = none ∨
      ∃ fx, req.fill_hex = some fx ∧ (normalizeFill fx).length = 6 ∧
        aRGBValid (upperString (normalizeFill fx)) = true)
    (cells : List (Nat × Nat)) :
    ∀ s : Sheet, ∃ s', formatCells req s cells = .ok (s', cells.length) := by
  induction cells with
  | nil => intro s; exact ⟨s, rfl⟩
  | cons a rest ih =>
    intro s
    obtain ⟨c1, hc1⟩ := applyFormat_ok_of_fillable req (s.get a.1 a.2) h
    obtain ⟨s', hs'⟩ := ih (s.setCell a.1 a.2 c1)
    refine ⟨s', ?_⟩
    unfold formatCells
    rw [hc1]
    simp only []
    rw [hs']
    simp

theorem formatCells_error_nonempty (req : FormatReq) (e : Err)
    (h : ∀ cell, applyFormat req cell = .error e)
    (cells : List (Nat × Nat)) (hne : cells ≠ []) (s : Sheet) :
    formatCells req s cells = .error e := by
  match cells with
  | [] => exact absurd rfl hne
  | a :: rest =>
    unfold formatCells
    rw [h (s.get a.1 a.2)]

theorem formatCells_fill_target (req : FormatReq) (fx : String)
    (hf : req.fill_hex = some fx) (cells : List (Nat × Nat)) :
    ∀ (s : Sheet) (p : Sheet × Nat), formatCells req s cells = .ok p →
    ∀ rc : Nat × Nat, rc ∈ cells →
    ((p.1).get rc.1 rc.2).fill = some (upperString (normalizeFill fx)) := by
  induction cells with
  | nil => intro s p h rc hrc; simp at hrc
  | cons a rest ih =>
    intro s p h rc hrc
    unfold formatCells at h
    rcases ha : applyFormat req (s.get a.1 a.2) with e | c1 <;> rw [ha] at h <;>
      simp only [] at h
    · cases h
    · rcases hr : formatCells req (s.setCell a.1 a.2 c1) rest with e | q <;>
        rw [hr] at h <;> simp only [] at h
      · cases h
      · cases h
        by_cases hrest : rc ∈ rest
        · exact ih _ q hr rc hrest
        · have hrc' : rc = a := by
            rcases List.mem_cons.1 hrc with hh | hh
            · exact hh
            · exact absurd hh hrest
          subst hrc'
          rw [formatCells_frame req rest _ q hr rc hrest, Sheet.get_setCell_self]
          exact applyFormat_fill_target req _ c1 fx hf ha

/-! Lemmas about `rename_sheet`'s list transformation. -/

theorem rename_names (l : List (String × Sheet)) (old new : String) :
    (l.map (fun p => if p.1 = old then (new, p.2) else p)).map Prod.fst
      = (l.map Prod.fst).map (fun x => if x = old then new else x) := by
  induction l with
  | nil => rfl
  | cons p l ih =>
    simp only [List.map_cons, ih]
    by_cases hp : p.1 = old <;> simp [hp]

theorem rename_find (l : List (String × Sheet)) (old new : String)
    (hold : old ∈ l.map Prod.fst) (hnew : ¬ new ∈ l.map Prod.fst) :
    (l.map (fun p => if p.1 = old then (new, p.2) else p)).find? (fun p => p.1 = new)
      = (l.find? (fun p => p.1 = old)).map (fun p => (new, p.2)) := by
  induction l with
  | nil => simp at hold
  | cons p l ih =>
    simp only [List.map_cons, List.mem_cons] at hold hnew
    push_neg at hnew
    by_cases hp : p.1 = old
    · have hhd : (if p.1 = old then (new, p.2) else p) = (new, p.2) := by simp [hp]
      simp only [List.map_cons, hhd]
      rw [List.find?_cons_of_pos _ (by simp), List.find?_cons_of_pos _ (by simp [hp])]
      rfl
    · simp only [List.map_cons, if_neg hp]
      rw [List.find?_cons_of_neg _ (by simp; exact fun hh => hnew.1 hh.symm),
        List.find?_cons_of_neg _ (by simp [hp])]
      exact ih (hold.resolve_left (fun hh => hp hh.symm)) hnew.2

/-! On a path whose workbook file already exists, every operation's disk
mutation happens only at its final save, so any error leaves the on-disk
file unchanged. -/

theorem write_cell_err_disk (ctx : Ctx) (wb : Workbook) (sn cell : String)
    (v : CellValue) (cim : Bool) (e : Err) :
    (write_cell ctx (some wb) sn cell v cim).1 = .error e →
    (write_cell ctx (some wb) sn cell v cim).2 = some wb := by
  unfold write_cell
  rcases hsp : safe_path ctx with e' | u <;> simp only []
  · intro _; trivial
  · simp only [load_or_create_workbook]
    rcases hes : ensure_sheet wb sn cim with e' | wb1 <;> simp only []
    · intro _; trivial
    · rcases hpc : parseCellRef cell with _ | ⟨c, r⟩ <;> simp only []
      · intro _; trivial
      · intro h; cases h

theorem list_sheets_disk (ctx : Ctx) (wb : Workbook) (cim : Bool) :
    (list_sheets ctx (some wb) cim).2 = some wb := by
  unfold list_sheets
  rcases hsp : safe_path ctx with e' | u <;> simp only [load_or_create_workbook] <;> rfl

theorem read_range_disk (ctx : Ctx) (wb : Workbook) (sn rng : String) (cim : Bool) :
    (read_range ctx (some wb) sn rng cim).2 = some wb := by
  unfold read_range
  rcases hsp : safe_path ctx with e' | u <;> simp only [load_or_create_workbook] <;>
    rcases hes : ensure_sheet wb sn cim with e' | wb1 <;> simp only [] <;>
    rcases hpc : parseRangeColon rng with _ | ⟨minC, minR, maxC, maxR⟩ <;>
    simp only [] <;> rfl

theorem write_range_err_disk (ctx : Ctx) (wb : Workbook) (sn start : String)
    (vals : List (List CellValue)) (cim : Bool) (e : Err) :
    (write_range ctx (some wb) sn start vals cim).1 = .error e →
    (write_range ctx (some wb) sn start vals cim).2 = some wb := by
  unfold write_range
  rcases hsp : safe_path ctx with e' | u <;> simp only []
  · intro _; trivial
  · simp only [load_or_create_workbook]
    rcases hes : ensure_sheet wb sn cim with e' | wb1 <;> simp only []
    · intro _; trivial
    · rcases hpc : parseCellRef start with _ | ⟨c0, r0⟩ <;> simp only []
      · intro _; trivial
      · intro h; cases h

theorem insert_rows_err_disk (ctx : Ctx) (wb : Workbook) (sn : String)
    (idx amount : Int) (cim : Bool) (e : Err) :
    (insert_rows ctx (some wb) sn idx amount cim).1 = .error e →
    (insert_rows ctx (some wb) sn idx amount cim).2 = some wb := by
  unfold insert_rows
  by_cases hidx : idx < 1 ∨ amount < 1
  · rw [if_pos hidx]; intro _; rfl
  · rw [if_neg hidx]
    rcases hsp : safe_path ctx with e' | u <;> simp only []
    · intro _; trivial
    · simp only [load_or_create_workbook]
      rcases hes : ensure_sheet wb sn cim with e' | wb1 <;> simp only []
      · intro _; trivial
      · intro h; cases h

theorem delete_rows_err_disk (ctx : Ctx) (wb : Workbook) (sn : String)
    (idx amount : Int) (cim : Bool) (e : Err) :
    (delete_rows ctx (some wb) sn idx amount cim).1 = .error e →
    (delete_rows ctx (some wb) sn idx amount cim).2 = some wb := by
  unfold delete_rows
  by_cases hidx : idx < 1 ∨ amount < 1
  · rw [if_pos hidx]; intro _; rfl
  · rw [if_neg hidx]
    rcases hsp : safe_path ctx with e' | u <;> simp only []
    · intro _; trivial
    · simp only [load_or_create_workbook]
      rcases hes : ensure_sheet wb sn cim with e' | wb1 <;> simp only []
      · intro _; trivial
      · intro h; cases h

theorem insert_columns_err_disk (ctx : Ctx) (wb : Workbook) (sn : String)
    (idx amount : Int) (cim : Bool) (e : Err) :
    (insert_columns ctx (some wb) sn idx amount cim).1 = .error e →
    (insert_columns ctx (some wb) sn idx amount cim).2 = some wb := by
  unfold insert_columns
  by_cases hidx : idx < 1 ∨ amount < 1
  · rw [if_pos hidx]; intro _; rfl
  · rw [if_neg hidx]
    rcases hsp : safe_path ctx with e' | u <;> simp only []
    · intro _; trivial
    · simp only [load_or_create_workbook]
      rcases hes : ensure_sheet wb sn cim with e' | wb1 <;> simp only []
      · intro _; trivial
      · intro h; cases h

theorem delete_columns_err_disk (ctx : Ctx) (wb : Workbook) (sn : String)
    (idx amount : Int) (cim : Bool) (e : Err) :
    (delete_columns ctx (some wb) sn idx amount cim).1 = .error e →
    (delete_columns ctx (some wb) sn idx amount cim).2 = some wb := by
  unfold delete_columns
  by_cases hidx : idx < 1 ∨ amount < 1
  · rw [if_pos hidx]; intro _; rfl
  · rw [if_neg hidx]
    rcases hsp : safe_path ctx with e' | u <;> simp only []
    · intro _; trivial
    · simp only [load_or_create_workbook]
      rcases hes : ensure_sheet wb sn cim with e' | wb1 <;> simp only []
      · intro _; trivial
      · intro h; cases h

theorem rename_sheet_err_disk (ctx : Ctx) (wb : Workbook) (old new : String) (e : Err) :
    (rename_sheet ctx (some wb) old new).1 = .error e →
    (rename_sheet ctx (some wb) old new).2 = some wb := by
  unfold rename_sheet
  rcases hvn : validate_sheet_name new with e' | u <;> simp only []
  · intro _; trivial
  · rcases hsp : safe_path ctx with e' | u' <;> simp only []
    · intro _; trivial
    · simp only [load_or_create_workbook]
      by_cases hold : ¬ old ∈ wb.sheetnames
      · rw [if_pos hold]; intro _; rfl
      · rw [if_neg hold]
        by_cases hnew : new ∈ wb.sheetnames
        · rw [if_pos hnew]; intro _; rfl
        · rw [if_neg hnew]; intro h; cases h

theorem delete_sheet_err_disk (ctx : Ctx) (wb : Workbook) (sn : String) (e : Err) :
    (delete_sheet ctx (some wb) sn).1 = .error e →
    (delete_sheet ctx (some wb) sn).2 = some wb := by
  unfold delete_sheet
  rcases hsp : safe_path ctx with e' | u <;> simp only []
  · intro _; trivial
  · simp only [load_or_create_workbook]
    by_cases hmem : ¬ sn ∈ wb.sheetnames
    · rw [if_pos hmem]; intro _; rfl
    · rw [if_neg hmem]
      by_cases hone : wb.sheetnames.length = 1
      · rw [if_pos hone]; intro _; rfl
      · rw [if_neg hone]; intro h; cases h

theorem clear_range_err_disk (ctx : Ctx) (wb : Workbook) (sn rng : String)
    (cim : Bool) (e : Err) :
    (clear_range ctx (some wb) sn rng cim).1 = .error e →
    (clear_range ctx (some wb) sn rng cim).2 = some wb := by
  unfold clear_range
  rcases hsp : safe_path ctx with e' | u <;> simp only []
  · intro _; trivial
  · simp only [load_or_create_workbook]
    rcases hes : ensure_sheet wb sn cim with e' | wb1 <;> simp only []
    · intro _; trivial
    · rcases hpr : parseRange rng with _ | ⟨minC, minR, maxC, maxR⟩ <;> simp only []
      · intro _; trivial
      · intro h; cases h

theorem format_range_err_disk (ctx : Ctx) (wb : Workbook) (sn rng : String)
    (req : FormatReq) (cim : Bool) (e : Err) :
    (format_range ctx (some wb) sn rng req cim).1 = .error e →
    (format_range ctx (some wb) sn rng req cim).2 = some wb := by
  unfold format_range
  rcases hsp : safe_path ctx with e' | u <;> simp only []
  · intro _; trivial
  · simp only [load_or_create_workbook]
    rcases hes : ensure_sheet wb sn cim with e' | wb1 <;> simp only []
    · intro _; trivial
    · rcases hpr : parseRange rng with _ | ⟨minC, minR, maxC, maxR⟩ <;> simp only []
      · intro _; trivial
      · rcases hfc : formatCells req (wb1.getSheet sn) (rangeCells minC minR maxC maxR)
          with e' | p <;> simp only []
        · intro _; trivial
        · intro h; cases h

/-! Concrete fixtures used to instantiate the claims. -/

/-- A candidate path validly nested under the workspace root. -/
def ctxDemo : Ctx := ⟨["ws"], ["ws", "demo.xlsx"], false⟩

/-- The sibling-directory scenario of the spec: root `/a/b`, candidate
`/a/b2/x.xlsx` — a string-prefix collision that segment comparison must
reject. -/
def ctxSibling : Ctx := ⟨["a", "b"], ["a", "b2", "x.xlsx"], false⟩

/-- Claim C9: on a path whose workbook file already exists on disk, an
operation that fails with any error leaves the on-disk file unchanged:
each operation saves only after all validation and in-memory mutation
completed. -/
theorem claim9_error_preserves_disk (ctx : Ctx) (wb : Workbook) (call : ToolCall)
    (e : Err) (h : (dispatch ctx (some wb) call).1 = .error e) :
    (dispatch ctx (some wb) call).2 = some wb := by
  cases call with
  | list_sheets cim =>
    simp only [dispatch] at h ⊢
    rcases hop : list_sheets ctx (some wb) cim with ⟨res, d⟩
    have hd := list_sheets_disk ctx wb cim
    rw [hop] at hd
    rcases res with e' | r <;> exact hd
  | read_range sn rng cim =>
    simp only [dispatch] at h ⊢
    rcases hop : read_range ctx (some wb) sn rng cim with ⟨res, d⟩
    have hd := read_range_disk ctx wb sn rng cim
    rw [hop] at hd
    rcases res with e' | r <;> exact hd
  | write_cell sn cell v cim =>
    simp only [dispatch] at h ⊢
    rcases hop : write_cell ctx (some wb) sn cell v cim with ⟨res, d⟩
    rcases res with e' | r
    · have hd := write_cell_err_disk ctx wb sn cell v cim e' (by rw [hop])
      rw [hop] at hd
      exact hd
    · rw [hop] at h
      exact absurd h (by simp)
  | write_range sn start vals cim =>
    simp only [dispatch] at h ⊢
    rcases hop : write_range ctx (some wb) sn start vals cim with ⟨res, d⟩
    rcases res with e' | r
    · have hd := write_range_err_disk ctx wb sn start vals cim e' (by rw [hop])
      rw [hop] at hd
      exact hd
    · rw [hop] at h
      exact absurd h (by simp)
  | insert_rows sn idx amount cim =>
    simp only [dispatch] at h ⊢
    rcases hop : insert_rows ctx (some wb) sn idx amount cim with ⟨res, d⟩
    rcases res with e' | r
    · have hd := insert_rows_err_disk ctx wb sn idx amount cim e' (by rw [hop])
      rw [hop] at hd
      exact hd
    · rw [hop] at h
      exact absurd h (by simp)
  | delete_rows sn idx amount cim =>
    simp only [dispatch] at h ⊢
    rcases hop : delete_rows ctx (some wb) sn idx amount cim with ⟨res, d⟩
    rcases res with e' | r
    · have hd := delete_rows_err_disk ctx wb sn idx amount cim e' (by rw [hop])
      rw [hop] at hd
      exact hd
    · rw [hop] at h
      exact absurd h (by simp)
  | insert_columns sn idx amount cim =>
    simp only [dispatch] at h ⊢
    rcases hop : insert_columns ctx (some wb) sn idx amount cim with ⟨res, d⟩
    rcases res with e' | r
    · have hd := insert_columns_err_disk ctx wb sn idx amount cim e' (by rw [hop])
      rw [hop] at hd
      exact hd
    · rw [hop] at h
      exact absurd h (by simp)
  | delete_columns sn idx amount cim =>
    simp only [dispatch] at h ⊢
    rcases hop : delete_columns ctx (some wb) sn idx amount cim with ⟨res, d⟩
    rcases res with e' | r
    · have hd := delete_columns_err_disk ctx wb sn idx amount cim e' (by rw [hop])
      rw [hop] at hd
      exact hd
    · rw [hop] at h
      exact absurd h (by simp)
  | rename_sheet old new =>
    simp only [dispatch] at h ⊢
    rcases hop : rename_sheet ctx (some wb) old new with ⟨res, d⟩
    rcases res with e' | r
    · have hd := rename_sheet_err_disk ctx wb old new e' (by rw [hop])
      rw [hop] at hd
      exact hd
    · rw [hop] at h
      exact absurd h (by simp)
  | delete_sheet sn =>
    simp only [dispatch] at h ⊢
    rcases hop : delete_sheet ctx (some wb) sn with ⟨res, d⟩
    rcases res with e' | r
    · have hd := delete_sheet_err_disk ctx wb sn e' (by rw [hop])
      rw [hop] at hd
      exact hd
    · rw [hop] at h
      exact absurd h (by simp)
  | clear_range sn rng cim =>
    simp only [dispatch] at h ⊢
    rcases hop : clear_range ctx (some wb) sn rng cim with ⟨res, d⟩
    rcases res with e' | r
    · have hd := clear_range_err_disk ctx wb sn rng cim e' (by rw [hop])
      rw [hop] at hd
      exact hd
    · rw [hop] at h
      exact absurd h (by simp)
  | format_range sn rng req cim =>
    simp only [dispatch] at h ⊢
    rcases hop : format_range ctx (some wb) sn rng req cim with ⟨res, d⟩
    rcases res with e' | r
    · have hd := format_range_err_disk ctx wb sn rng req cim e' (by rw [hop])
      rw [hop] at hd
      exact hd
    · rw [hop] at h
      exact absurd h (by simp)

/-- Claim C9 witness: a `delete_sheet` hitting the last-sheet check on an
existing one-sheet workbook leaves the on-disk workbook untouched. -/
theorem claim9_witness :
    (dispatch ctxDemo (some newWorkbook) (ToolCall.delete_sheet "Sheet")).2
      = some newWorkbook :=
  claim9_error_preserves_disk ctxDemo newWorkbook (ToolCall.delete_sheet "Sheet")
    .LastSheetViolation (by rfl)

/-- Claim C1 counterexample: on a path outside the workspace, not every
operation fails with `OutOfWorkspace` — `insert_rows` validates its index
arguments before `_safe_path` runs, so with `idx = 0` it fails with
`InvalidIndex` instead. -/
theorem claim1_counterexample :
    (dispatch ⟨["a", "b"], ["a", "b2", "x.xlsx"], false⟩ none
      (ToolCall.insert_rows "Data" 0 1 false)).1 = .error .InvalidIndex ∧
    Err.InvalidIndex ≠ Err.OutOfWorkspace :=
  ⟨by rfl, by decide⟩

/-- Claim C1 (amended): for every caller-supplied path whose resolved form
is neither the resolved workspace root nor strictly nested under it by
path segments (string-prefix siblings included), every operation fails and
leaves the disk untouched; the error is `OutOfWorkspace` except when an
argument check that precedes path validation fires first (`InvalidIndex`
for the structural operations with `idx < 1` or `amount < 1`,
`InvalidSheetName` for `rename_sheet` with an invalid new name). -/
theorem claim1_out_of_workspace (ctx : Ctx) (disk : Option Workbook) (call : ToolCall)
    (h : safeWithin ctx.root ctx.cand = false) :
    (dispatch ctx disk call).1 = .error ((earlyError call).getD .OutOfWorkspace) ∧
    (dispatch ctx disk call).2 = disk := by
  have hsp : safe_path ctx = .error .OutOfWorkspace := by
    unfold safe_path
    rw [if_pos (by simp [h])]
  cases call with
  | list_sheets cim =>
    simp [dispatch, list_sheets, hsp, earlyError]
  | read_range sn rng cim =>
    simp [dispatch, read_range, hsp, earlyError]
  | write_cell sn cell v cim =>
    simp [dispatch, write_cell, hsp, earlyError]
  | write_range sn start vals cim =>
    simp [dispatch, write_range, hsp, earlyError]
  | insert_rows sn idx amount cim =>
    by_cases hidx : idx < 1 ∨ amount < 1 <;>
      simp [dispatch, insert_rows, hsp, earlyError, hidx]
  | delete_rows sn idx amount cim =>
    by_cases hidx : idx < 1 ∨ amount < 1 <;>
      simp [dispatch, delete_rows, hsp, earlyError, hidx]
  | insert_columns sn idx amount cim =>
    by_cases hidx : idx < 1 ∨ amount < 1 <;>
      simp [dispatch, insert_columns, hsp, earlyError, hidx]
  | delete_columns sn idx amount cim =>
    by_cases hidx : idx < 1 ∨ amount < 1 <;>
      simp [dispatch, delete_columns, hsp, earlyError, hidx]
  | rename_sheet old new =>
    by_cases hv : validSheetName new = true <;>
      simp [dispatch, rename_sheet, validate_sheet_name, hsp, earlyError, hv]
  | delete_sheet sn =>
    simp [dispatch, delete_sheet, hsp, earlyError]
  | clear_range sn rng cim =>
    simp [dispatch, clear_range, hsp, earlyError]
  | format_range sn rng req cim =>
    simp [dispatch, format_range, hsp, earlyError]

/-- Claim C1 witness: the sibling-directory scenario (root `/a/b`,
candidate `/a/b2/x.xlsx`) is rejected with `OutOfWorkspace`. -/
theorem claim1_witness :
    (dispatch ctxSibling none (ToolCall.list_sheets false)).1
        = .error .OutOfWorkspace ∧
    (dispatch ctxSibling none (ToolCall.list_sheets false)).2 = none := by
  have h := claim1_out_of_workspace ctxSibling none (ToolCall.list_sheets false) (by rfl)
  simpa [earlyError] using h

/-- Claim C2 counterexample: on a workbook with exactly one sheet
("Sheet"), `delete_sheet` with a non-existent name fails with
`SheetNotFound`, not `LastSheetViolation` — the missing-name check runs
first. -/
theorem claim2_counterexample :
    (delete_sheet ctxDemo (some newWorkbook) "Other").1 = .error .SheetNotFound ∧
    Err.SheetNotFound ≠ Err.LastSheetViolation :=
  ⟨by rfl, by decide⟩

/-- Claim C2 (amended): on a workbook with exactly one sheet,
`delete_sheet` always fails, with `LastSheetViolation` when the supplied
name is the existing sheet's name and `SheetNotFound` otherwise. -/
theorem claim2_one_sheet_delete (ctx : Ctx) (n : String) (s : Sheet) (m : String)
    (hsp : safe_path ctx = .ok ()) :
    (delete_sheet ctx (some ⟨[(n, s)]⟩) m).1 =
      .error (if m = n then .LastSheetViolation else .SheetNotFound) := by
  unfold delete_sheet
  rw [hsp]
  simp only [load_or_create_workbook]
  have hnames : (Workbook.mk [(n, s)]).sheetnames = [n] := rfl
  by_cases hm : m = n
  · rw [if_neg (by simp [hnames, hm]), if_pos (by simp [hnames]), if_pos hm]
  · rw [if_pos (by simp [hnames, hm]), if_neg hm]

/-- Claim C2 witness: deleting the only sheet by its actual name hits the
last-sheet check. -/
theorem claim2_witness :
    (delete_sheet ctxDemo (some ⟨[("Sheet", emptySheet)]⟩) "Sheet").1
      = .error (if "Sheet" = "Sheet" then Err.LastSheetViolation else Err.SheetNotFound) :=
  claim2_one_sheet_delete ctxDemo "Sheet" emptySheet "Sheet" (by rfl)

theorem Workbook.renameSheet_names (wb : Workbook) (old new : String) :
    (wb.renameSheet old new).sheetnames
      = wb.sheetnames.map (fun x => if x = old then new else x) := by
  simp only [Workbook.renameSheet, Workbook.sheetnames]
  exact rename_names wb.sheets old new

theorem Workbook.renameSheet_find (wb : Workbook) (old new : String)
    (hold : old ∈ wb.sheetnames) (hnew : ¬ new ∈ wb.sheetnames) :
    (wb.renameSheet old new).find? new = wb.find? old := by
  simp only [Workbook.renameSheet, Workbook.find?]
  rw [rename_find wb.sheets old new hold hnew]
  cases wb.sheets.find? (fun p => p.1 = old) <;> rfl

/-- Claim C8 counterexample: when the old name is absent and the new name
is invalid, `rename_sheet` fails with `InvalidSheetName`, not
`SheetNotFound` — the new-name validation runs before the old-name
lookup. -/
theorem claim8_counterexample :
    (rename_sheet ctxDemo (some newWorkbook) "Missing" "").1
        = .error .InvalidSheetName ∧
    Err.InvalidSheetName ≠ Err.SheetNotFound :=
  ⟨by rfl, by decide⟩

/-- Claim C8 (amended): `rename_sheet` validates the new name first
(failing with `InvalidSheetName` regardless of the old name), then fails
with `SheetNotFound` if the old name is absent, then with
`SheetNameCollision` if the new name already exists (leaving the disk —
and therefore the original sheet under its old name — unchanged), and
otherwise renames in place, preserving position and content. -/
theorem claim8_rename (ctx : Ctx) (wb : Workbook) (old new : String)
    (hsp : safe_path ctx = .ok ()) :
    (validSheetName new = false →
      (rename_sheet ctx (some wb) old new).1 = .error .InvalidSheetName ∧
      (rename_sheet ctx (some wb) old new).2 = some wb) ∧
    (validSheetName new = true → ¬ old ∈ wb.sheetnames →
      (rename_sheet ctx (some wb) old new).1 = .error .SheetNotFound ∧
      (rename_sheet ctx (some wb) old new).2 = some wb) ∧
    (validSheetName new = true → old ∈ wb.sheetnames → new ∈ wb.sheetnames →
      (rename_sheet ctx (some wb) old new).1 = .error .SheetNameCollision ∧
      (rename_sheet ctx (some wb) old new).2 = some wb) ∧
    (validSheetName new = true → old ∈ wb.sheetnames → ¬ new ∈ wb.sheetnames →
      rename_sheet ctx (some wb) old new = (.ok (), some (wb.renameSheet old new)) ∧
      (wb.renameSheet old new).sheetnames
        = wb.sheetnames.map (fun x => if x = old then new else x) ∧
      (wb.renameSheet old new).find? new = wb.find? old) := by
  refine ⟨fun hv => ?_, fun hv hold => ?_, fun hv hold hnew => ?_, fun hv hold hnew => ?_⟩
  · unfold rename_sheet
    simp [validate_sheet_name, hv]
  · unfold rename_sheet
    simp [validate_sheet_name, hv, hsp, load_or_create_workbook, hold]
  · unfold rename_sheet
    simp [validate_sheet_name, hv, hsp, load_or_create_workbook, hold, hnew]
  · refine ⟨?_, Workbook.renameSheet_names wb old new,
      Workbook.renameSheet_find wb old new hold hnew⟩
    unfold rename_sheet
    simp [validate_sheet_name, hv, hsp, load_or_create_workbook, hold, hnew]

/-- A workbook with two sheets "A" and "B", used to exercise the rename
collision. -/
def wbTwoSheets : Workbook := ⟨[("A", emptySheet), ("B", emptySheet)]⟩

/-- Claim C8 witness: renaming "A" to the already-present "B" collides and
the disk — hence the sheet under its old name — is unchanged. -/
theorem claim8_witness :
    (rename_sheet ctxDemo (some wbTwoSheets) "A" "B").1 = .error .SheetNameCollision ∧
    (rename_sheet ctxDemo (some wbTwoSheets) "A" "B").2 = some wbTwoSheets :=
  (claim8_rename ctxDemo wbTwoSheets "A" "B" (by rfl)).2.2.1 (by rfl)
    (by decide) (by decide)

theorem read_range_create_disk (ctx : Ctx) (sn rng : String)
    (hsp : safe_path ctx = .ok ()) :
    (read_range ctx none sn rng true).2 = some newWorkbook := by
  unfold read_range
  rw [hsp]
  have hload : load_or_create_workbook none true = .ok (newWorkbook, some newWorkbook) := rfl
  rw [hload]
  simp only []
  rcases hes : ensure_sheet newWorkbook sn true with e | wb1 <;> simp only [] <;>
    rcases hpr : parseRangeColon rng with _ | ⟨a, b, c, d⟩ <;> simp only [] <;> rfl

/-- Claim C10: `list_sheets` and `read_range` never save after loading.
With `create_if_missing = true` on an existing file whose named sheet is
absent, `read_range` answers from the sheet created only in memory (the
response carries the requested sheet name and an all-empty grid) while
the on-disk workbook is unchanged; `list_sheets` likewise leaves the disk
as loaded; a missing file, by contrast, is created and saved by the
workbook accessor itself, after which the in-memory sheet is still not
saved. -/
theorem claim10_read_only (ctx : Ctx) (wb : Workbook) (sn rng : String) (b : Bool)
    (minC minR maxC maxR : Nat)
    (hsp : safe_path ctx = .ok ()) (hv : validSheetName sn = true)
    (hmem : ¬ sn ∈ wb.sheetnames)
    (hrng : parseRangeColon rng = some (minC, minR, maxC, maxR)) :
    (read_range ctx (some wb) sn rng true).1
        = .ok ⟨sn, readGrid emptySheet minC minR maxC maxR⟩ ∧
    (read_range ctx (some wb) sn rng true).2 = some wb ∧
    (list_sheets ctx (some wb) b).2 = some wb ∧
    (read_range ctx none sn rng true).2 = some newWorkbook := by
  refine ⟨?_, read_range_disk ctx wb sn rng true, list_sheets_disk ctx wb b,
    read_range_create_disk ctx sn rng hsp⟩
  have hens : ensure_sheet wb sn true = .ok (wb.createSheet sn) := by
    unfold ensure_sheet validate_sheet_name
    simp [hv, hmem]
  unfold read_range
  rw [hsp]
  simp only [load_or_create_workbook]
  rw [hens]
  simp only []
  rw [hrng]
  simp only []
  rw [Workbook.getSheet_createSheet wb sn hmem]

/-- Claim C10 witness: reading a missing sheet "Fresh" from an existing
one-sheet workbook with `create_if_missing = true` returns an empty 2×2
grid and leaves the disk unchanged; on a missing file the accessor saves
a fresh default workbook (without "Fresh"). -/
theorem claim10_witness :
    (read_range ctxDemo (some newWorkbook) "Fresh" "A1:B2" true).1
        = .ok ⟨"Fresh", readGrid emptySheet 1 1 2 2⟩ ∧
    (read_range ctxDemo (some newWorkbook) "Fresh" "A1:B2" true).2 = some newWorkbook ∧
    (list_sheets ctxDemo (some newWorkbook) false).2 = some newWorkbook ∧
    (read_range ctxDemo none "Fresh" "A1:B2" true).2 = some newWorkbook :=
  claim10_read_only ctxDemo newWorkbook "Fresh" "A1:B2" false 1 1 2 2
    (by rfl) (by rfl) (by decide) (by rfl)

/-- Claim C4: a successful `write_cell` followed by `read_range` over any
range covering that cell returns the written value unchanged — identity
for every value (text, number, boolean), the `CellValue` carrying both the
value and its type. -/
theorem claim4_roundtrip (ctx : Ctx) (wb : Workbook) (sn cell : String) (v : CellValue)
    (c r minC minR maxC maxR : Nat) (rng : String)
    (hsp : safe_path ctx = .ok ()) (hv : validSheetName sn = true)
    (hcell : parseCellRef cell = some (c, r))
    (hrng : parseRangeColon rng = some (minC, minR, maxC, maxR))
    (hr1 : minR ≤ r) (hr2 : r ≤ maxR) (hc1 : minC ≤ c) (hc2 : c ≤ maxC) :
    ∃ wb2, write_cell ctx (some wb) sn cell v true = (.ok ⟨cell, v⟩, some wb2) ∧
      ∃ out, (read_range ctx (some wb2) sn rng false).1 = .ok out ∧
        (out.values.getD (r - minR) []).getD (c - minC) .empty = v := by
  obtain ⟨wb1, hens, hget, hmem1⟩ := ensure_sheet_ok wb sn true hv (Or.inr rfl)
  refine ⟨wb1.updSheet sn ((wb1.getSheet sn).setValue r c v), ?_, ?_⟩
  · unfold write_cell
    rw [hsp]
    simp only [load_or_create_workbook]
    rw [hens]
    simp only []
    rw [hcell]
  · have hmem2 : sn ∈ (wb1.updSheet sn ((wb1.getSheet sn).setValue r c v)).sheetnames := by
      rw [Workbook.sheetnames_updSheet]
      exact hmem1
    have hens2 : ensure_sheet (wb1.updSheet sn ((wb1.getSheet sn).setValue r c v)) sn false
        = .ok (wb1.updSheet sn ((wb1.getSheet sn).setValue r c v)) := by
      unfold ensure_sheet validate_sheet_name
      simp [hv, hmem2]
    refine ⟨⟨sn, readGrid ((wb1.getSheet sn).setValue r c v) minC minR maxC maxR⟩, ?_, ?_⟩
    · unfold read_range
      rw [hsp]
      simp only [load_or_create_workbook]
      rw [hens2]
      simp only []
      rw [hrng]
      simp only []
      rw [Workbook.getSheet_updSheet _ _ _ hmem1]
    · rw [readGrid_getD _ minC minR maxC maxR r c hr1 hr2 hc1 hc2]
      rw [Sheet.get_setValue_self]

/-- Claim C4 witness: writing the number 7 into `B2` of a fresh sheet
"Data" and reading `A1:C3` back yields 7 at row 2, column 2. -/
theorem claim4_witness :
    ∃ wb2, write_cell ctxDemo (some newWorkbook) "Data" "B2" (.number 7) true
        = (.ok ⟨"B2", .number 7⟩, some wb2) ∧
      ∃ out, (read_range ctxDemo (some wb2) "Data" "A1:C3" false).1 = .ok out ∧
        (out.values.getD (2 - 1) []).getD (2 - 1) .empty = .number 7 :=
  claim4_roundtrip ctxDemo newWorkbook "Data" "B2" (.number 7) 2 2 1 1 3 3 "A1:C3"
    (by rfl) (by rfl) (by rfl) (by rfl) (by decide) (by decide) (by decide) (by decide)

/-- Claim C5: a successful `write_range` writes the values row-major from
the anchor cell (every non-empty input value lands at anchor + its
row/column offset; explicitly empty input values are skipped by the
underlying `cell(...)` setter but still counted) and reports
`written_cells = rows × columns` for a rectangular input. -/
theorem claim5_write_range (ctx : Ctx) (wb : Workbook) (sn start : String)
    (vals : List (List CellValue)) (cim : Bool) (c0 r0 cols : Nat)
    (hsp : safe_path ctx = .ok ()) (hv : validSheetName sn = true)
    (hcm : sn ∈ wb.sheetnames ∨ cim = true)
    (hstart : parseCellRef start = some (c0, r0))
    (hrect : ∀ row ∈ vals, row.length = cols) :
    ∃ wb2, write_range ctx (some wb) sn start vals cim
        = (.ok ⟨vals.length, vals.length * cols⟩, some wb2) ∧
      ∀ i j, i < vals.length → j < cols →
        (vals.getD i []).getD j .empty ≠ .empty →
        ((wb2.getSheet sn).get (r0 + i) (c0 + j)).value
          = (vals.getD i []).getD j .empty := by
  obtain ⟨wb1, hens, hget, hmem1⟩ := ensure_sheet_ok wb sn cim hv hcm
  refine ⟨wb1.updSheet sn (writeRowsVals (wb1.getSheet sn) r0 c0 vals).1, ?_, ?_⟩
  · unfold write_range
    rw [hsp]
    simp only [load_or_create_workbook]
    rw [hens]
    simp only []
    rw [hstart]
    simp only []
    rw [writeRowsVals_snd vals, sum_map_length_rect vals cols hrect]
  · intro i j hi hj hne
    rw [Workbook.getSheet_updSheet _ _ _ hmem1]
    have hlen : (vals.getD i []).length = cols := by
      have h1 : vals.getD i [] = vals[i] := by
        rw [List.getD_eq_getElem?_getD, List.getElem?_eq_getElem hi]
        rfl
      rw [h1]
      exact hrect _ (vals.getElem_mem hi)
    exact writeRowsVals_getD vals (wb1.getSheet sn) r0 c0 i j hi
      (by rw [hlen]; exact hj) hne

/-- Claim C5 witness: a 2×2 block anchored at `B2` containing an explicit
empty cell reports 4 written cells, and its non-empty values land
row-major at the anchor. -/
theorem claim5_witness :
    ∃ wb2, write_range ctxDemo (some newWorkbook) "Data" "B2"
        [[.text "a", .empty], [.number 1, .number 2]] true
        = (.ok ⟨2, 2 * 2⟩, some wb2) ∧
      ∀ i j, i < ([[CellValue.text "a", .empty], [.number 1, .number 2]]).length →
        j < 2 →
        (([[CellValue.text "a", .empty], [.number 1, .number 2]]).getD i []).getD j .empty
          ≠ .empty →
        ((wb2.getSheet "Data").get (2 + i) (2 + j)).value
          = (([[CellValue.text "a", .empty], [.number 1, .number 2]]).getD i []).getD j
              .empty :=
  claim5_write_range ctxDemo newWorkbook "Data" "B2"
    [[.text "a", .empty], [.number 1, .number 2]] true 2 2 2
    (by rfl) (by rfl) (Or.inr rfl) (by rfl) (by decide)

/-- Claim C6: `clear_range` is idempotent in its reported count — after a
successful `clear_range`, repeating it on the same range returns
`cleared_cells = 0`, because the first call emptied every cell value in
the range and only previously non-empty cells are counted. -/
theorem claim6_clear_idempotent (ctx : Ctx) (wb : Workbook) (sn rng : String)
    (cim cim2 : Bool) (minC minR maxC maxR : Nat)
    (hsp : safe_path ctx = .ok ()) (hv : validSheetName sn = true)
    (hcm : sn ∈ wb.sheetnames ∨ cim = true)
    (hrng : parseRange rng = some (minC, minR, maxC, maxR)) :
    ∃ n wb2, clear_range ctx (some wb) sn rng cim = (.ok ⟨n⟩, some wb2) ∧
      (clear_range ctx (some wb2) sn rng cim2).1 = .ok ⟨0⟩ := by
  obtain ⟨wb1, hens, hget, hmem1⟩ := ensure_sheet_ok wb sn cim hv hcm
  set cells := rangeCells minC minR maxC maxR with hcells
  set p := clearCells (wb1.getSheet sn) cells with hp
  refine ⟨p.2, wb1.updSheet sn p.1, ?_, ?_⟩
  · unfold clear_range
    rw [hsp]
    simp only [load_or_create_workbook]
    rw [hens]
    simp only []
    rw [hrng]
  · have hmem2 : sn ∈ (wb1.updSheet sn p.1).sheetnames := by
      rw [Workbook.sheetnames_updSheet]
      exact hmem1
    have hens2 : ensure_sheet (wb1.updSheet sn p.1) sn cim2
        = .ok (wb1.updSheet sn p.1) := by
      unfold ensure_sheet validate_sheet_name
      simp [hv, hmem2]
    unfold clear_range
    rw [hsp]
    simp only [load_or_create_workbook]
    rw [hens2]
    simp only []
    rw [hrng]
    simp only []
    rw [Workbook.getSheet_updSheet _ _ _ hmem1]
    rw [clearCells_of_allEmpty cells p.1
      (fun rc hrc => clearCells_val cells (wb1.getSheet sn) rc hrc)]

/-- Claim C6 witness: clearing `A1:B2` twice on a fresh default workbook
reports 0 on the second call (the general theorem covers any workbook). -/
theorem claim6_witness :
    ∃ n wb2, clear_range ctxDemo (some newWorkbook) "Sheet" "A1:B2" false
        = (.ok ⟨n⟩, some wb2) ∧
      (clear_range ctxDemo (some wb2) "Sheet" "A1:B2" false).1 = .ok ⟨0⟩ :=
  claim6_clear_idempotent ctxDemo newWorkbook "Sheet" "A1:B2" false false 1 1 2 2
    (by rfl) (by rfl) (Or.inl (by decide)) (by rfl)

/-- Claim C3 counterexample: `fill_hex = " #eaf2ff "` is not "exactly 6
hexadecimal characters optionally prefixed with '#'" (it carries
surrounding whitespace), so the claim requires it to fail with
`InvalidColor`; yet `format_range` strips whitespace and every leading
`#`, succeeds, and stores `"EAF2FF"`. -/
theorem claim3_counterexample :
    (format_range ctxDemo (some newWorkbook) "Sheet" "A1:A1"
        { fill_hex := some " #eaf2ff " } false).1 = .ok ⟨1⟩ ∧
    ((((format_range ctxDemo (some newWorkbook) "Sheet" "A1:A1"
        { fill_hex := some " #eaf2ff " } false).2.getD newWorkbook).getSheet
          "Sheet").get 1 1).fill = some "EAF2FF" ∧
    (format_range ctxDemo (some newWorkbook) "Sheet" "A1:A1"
        { fill_hex := some " #eaf2ff " } false).1 ≠ .error .InvalidColor := by
  refine ⟨by rfl, by rfl, ?_⟩
  rw [show (format_range ctxDemo (some newWorkbook) "Sheet" "A1:A1"
    { fill_hex := some " #eaf2ff " } false).1 = .ok ⟨1⟩ from rfl]
  exact fun hh => Except.noConfusion hh

/-- Claim C3 (amended): on a range containing at least one cell,
`format_range` with a `fill_hex` argument succeeds exactly when, after
stripping surrounding whitespace and removing all leading `#` characters,
exactly six hexadecimal characters remain — so whitespace padding and
repeated `#` prefixes are also tolerated — storing the color
case-normalized to uppercase with the `#` removed on every cell of the
range; every other `fill_hex` value fails with `InvalidColor` (the
six-character length check is the server's own raise, the hexadecimal
check is the spreadsheet library's aRGB validation at fill construction),
leaving the disk unchanged. -/
theorem claim3_fill_validation (ctx : Ctx) (wb : Workbook) (sn rng : String)
    (req : FormatReq) (cim : Bool) (fx : String) (minC minR maxC maxR : Nat)
    (hsp : safe_path ctx = .ok ()) (hv : validSheetName sn = true)
    (hcm : sn ∈ wb.sheetnames ∨ cim = true)
    (hrng : parseRange rng = some (minC, minR, maxC, maxR))
    (hR : minR ≤ maxR) (hC : minC ≤ maxC)
    (hfx : req.fill_hex = some fx) :
    ((normalizeFill fx).length = 6 →
      aRGBValid (upperString (normalizeFill fx)) = true →
      ∃ wb2, format_range ctx (some wb) sn rng req cim
          = (.ok ⟨(rangeCells minC minR maxC maxR).length⟩, some wb2) ∧
        ∀ r c, minR ≤ r → r ≤ maxR → minC ≤ c → c ≤ maxC →
          ((wb2.getSheet sn).get r c).fill = some (upperString (normalizeFill fx))) ∧
    (¬ ((normalizeFill fx).length = 6 ∧
        aRGBValid (upperString (normalizeFill fx)) = true) →
      (format_range ctx (some wb) sn rng req cim).1 = .error .InvalidColor ∧
      (format_range ctx (some wb) sn rng req cim).2 = some wb) := by
  obtain ⟨wb1, hens, hget, hmem1⟩ := ensure_sheet_ok wb sn cim hv hcm
  constructor
  · intro hlen hhex
    obtain ⟨s', hfc⟩ := formatCells_ok req (Or.inr ⟨fx, hfx, hlen, hhex⟩)
      (rangeCells minC minR maxC maxR) (wb1.getSheet sn)
    refine ⟨wb1.updSheet sn s', ?_, ?_⟩
    · unfold format_range
      rw [hsp]
      simp only [load_or_create_workbook]
      rw [hens]
      simp only []
      rw [hrng]
      simp only []
      rw [hfc]
    · intro r c h1 h2 h3 h4
      rw [Workbook.getSheet_updSheet _ _ _ hmem1]
      exact formatCells_fill_target req fx hfx (rangeCells minC minR maxC maxR)
        (wb1.getSheet sn) (s', (rangeCells minC minR maxC maxR).length) hfc (r, c)
        ((mem_rangeCells minC minR maxC maxR r c).2 ⟨h1, h2, h3, h4⟩)
  · intro hbad
    have hne : rangeCells minC minR maxC maxR ≠ [] :=
      List.ne_nil_of_mem ((mem_rangeCells minC minR maxC maxR minR minC).2
        ⟨le_refl _, hR, le_refl _, hC⟩)
    have hfc := formatCells_error_nonempty req .InvalidColor
      (fun cell => applyFormat_bad req cell fx hfx hbad)
      (rangeCells minC minR maxC maxR) hne (wb1.getSheet sn)
    constructor <;>
    · unfold format_range
      rw [hsp]
      simp only [load_or_create_workbook]
      rw [hens]
      simp only []
      rw [hrng]
      simp only []
      rw [hfc]

/-- Claim C3 witness: `fill_hex = " #eaf2ff "` strips to six hexadecimal
characters, succeeds, and stores `"EAF2FF"`; `fill_hex = "zzzzzz"` is six
characters but not hexadecimal and fails with `InvalidColor`, leaving the
disk unchanged. -/
theorem claim3_witness :
    (∃ wb2, format_range ctxDemo (some newWorkbook) "Sheet" "A1:A1"
        { fill_hex := some " #eaf2ff " } false
        = (.ok ⟨(rangeCells 1 1 1 1).length⟩, some wb2) ∧
      ∀ r c, 1 ≤ r → r ≤ 1 → 1 ≤ c → c ≤ 1 →
        ((wb2.getSheet "Sheet").get r c).fill
          = some (upperString (normalizeFill " #eaf2ff "))) ∧
    ((format_range ctxDemo (some newWorkbook) "Sheet" "A1:A1"
        { fill_hex := some "zzzzzz" } false).1 = .error .InvalidColor ∧
      (format_range ctxDemo (some newWorkbook) "Sheet" "A1:A1"
        { fill_hex := some "zzzzzz" } false).2 = some newWorkbook) :=
  ⟨(claim3_fill_validation ctxDemo newWorkbook "Sheet" "A1:A1"
      { fill_hex := some " #eaf2ff " } false " #eaf2ff " 1 1 1 1
      (by rfl) (by rfl) (Or.inl (by decide)) (by rfl) (by decide) (by decide)
      (by rfl)).1 (by rfl) (by rfl),
   (claim3_fill_validation ctxDemo newWorkbook "Sheet" "A1:A1"
      { fill_hex := some "zzzzzz" } false "zzzzzz" 1 1 1 1
      (by rfl) (by rfl) (Or.inl (by decide)) (by rfl) (by decide) (by decide)
      (by rfl)).2 (by decide)⟩

/-- Claim C7: `format_range` has merge semantics — after a successful
call, every format attribute (bold, wrap, horizontal and vertical
alignment, number format, fill) that was absent from the request keeps its
prior value, at every cell. -/
theorem claim7_format_merge (ctx : Ctx) (wb : Workbook) (sn rng : String)
    (req : FormatReq) (cim : Bool) (minC minR maxC maxR : Nat)
    (res : FormatRangeResult)
    (hsp : safe_path ctx = .ok ()) (hv : validSheetName sn = true)
    (hcm : sn ∈ wb.sheetnames ∨ cim = true)
    (hrng : parseRange rng = some (minC, minR, maxC, maxR))
    (hres : (format_range ctx (some wb) sn rng req cim).1 = .ok res) :
    ∀ r c,
      (req.bold = none →
        ((((format_range ctx (some wb) sn rng req cim).2.getD wb).getSheet sn).get
          r c).font.bold = ((wb.getSheet sn).get r c).font.bold) ∧
      (req.wrap_text = none →
        ((((format_range ctx (some wb) sn rng req cim).2.getD wb).getSheet sn).get
          r c).alignment.wrapText = ((wb.getSheet sn).get r c).alignment.wrapText) ∧
      (req.horizontal = none →
        ((((format_range ctx (some wb) sn rng req cim).2.getD wb).getSheet sn).get
          r c).alignment.horizontal
          = ((wb.getSheet sn).get r c).alignment.horizontal) ∧
      (req.vertical = none →
        ((((format_range ctx (some wb) sn rng req cim).2.getD wb).getSheet sn).get
          r c).alignment.vertical = ((wb.getSheet sn).get r c).alignment.vertical) ∧
      (req.number_format = none →
        ((((format_range ctx (some wb) sn rng req cim).2.getD wb).getSheet sn).get
          r c).number_format = ((wb.getSheet sn).get r c).number_format) ∧
      (req.fill_hex = none →
        ((((format_range ctx (some wb) sn rng req cim).2.getD wb).getSheet sn).get
          r c).fill = ((wb.getSheet sn).get r c).fill) := by
  obtain ⟨wb1, hens, hget, hmem1⟩ := ensure_sheet_ok wb sn cim hv hcm
  rcases hfc : formatCells req (wb1.getSheet sn) (rangeCells minC minR maxC maxR)
    with e | p
  · exfalso
    have hF : (format_range ctx (some wb) sn rng req cim).1 = .error e := by
      unfold format_range
      rw [hsp]
      simp only [load_or_create_workbook]
      rw [hens]
      simp only []
      rw [hrng]
      simp only []
      rw [hfc]
    rw [hF] at hres
    exact Except.noConfusion hres
  · have hF : format_range ctx (some wb) sn rng req cim
        = (.ok ⟨p.2⟩, some (wb1.updSheet sn p.1)) := by
      unfold format_range
      rw [hsp]
      simp only [load_or_create_workbook]
      rw [hens]
      simp only []
      rw [hrng]
      simp only []
      rw [hfc]
    intro r c
    rw [hF]
    simp only [Option.getD_some]
    rw [Workbook.getSheet_updSheet _ _ _ hmem1, ← hget]
    refine ⟨fun hb => ?_, fun hw => ?_, fun hh => ?_, fun hvv => ?_,
      fun hn => ?_, fun hf => ?_⟩
    · exact congrArg Font.bold (formatCells_preserves req (fun cell => cell.font)
        (fun cell c1 hc => applyFormat_font_of_none req cell c1 hb hc)
        (rangeCells minC minR maxC maxR) (wb1.getSheet sn) p hfc r c)
    · exact formatCells_preserves req (fun cell => cell.alignment.wrapText)
        (fun cell c1 hc => applyFormat_wrap_of_none req cell c1 hw hc)
        (rangeCells minC minR maxC maxR) (wb1.getSheet sn) p hfc r c
    · exact formatCells_preserves req (fun cell => cell.alignment.horizontal)
        (fun cell c1 hc => applyFormat_horizontal_of_none req cell c1 hh hc)
        (rangeCells minC minR maxC maxR) (wb1.getSheet sn) p hfc r c
    · exact formatCells_preserves req (fun cell => cell.alignment.vertical)
        (fun cell c1 hc => applyFormat_vertical_of_none req cell c1 hvv hc)
        (rangeCells minC minR maxC maxR) (wb1.getSheet sn) p hfc r c
    · exact formatCells_preserves req (fun cell => cell.number_format)
        (fun cell c1 hc => applyFormat_number_format_of_none req cell c1 hn hc)
        (rangeCells minC minR maxC maxR) (wb1.getSheet sn) p hfc r c
    · exact formatCells_preserves req (fun cell => cell.fill)
        (fun cell c1 hc => applyFormat_fill_of_none req cell c1 hf hc)
        (rangeCells minC minR maxC maxR) (wb1.getSheet sn) p hfc r c

/-- Claim C7 witness: a request setting only `wrap_text` on `A1:A1` leaves
bold, alignment directions, number format, and fill of cell (1, 1)
unchanged. -/
theorem claim7_witness :
    (FormatReq.bold { wrap_text := some true } = none →
      ((((format_range ctxDemo (some newWorkbook) "Sheet" "A1:A1"
          { wrap_text := some true } false).2.getD newWorkbook).getSheet "Sheet").get
        1 1).font.bold = (((newWorkbook).getSheet "Sheet").get 1 1).font.bold) ∧
    (FormatReq.wrap_text { wrap_text := some true } = none →
      ((((format_range ctxDemo (some newWorkbook) "Sheet" "A1:A1"
          { wrap_text := some true } false).2.getD newWorkbook).getSheet "Sheet").get
        1 1).alignment.wrapText
        = (((newWorkbook).getSheet "Sheet").get 1 1).alignment.wrapText) ∧
    (FormatReq.horizontal { wrap_text := some true } = none →
      ((((format_range ctxDemo (some newWorkbook) "Sheet" "A1:A1"
          { wrap_text := some true } false).2.getD newWorkbook).getSheet "Sheet").get
        1 1).alignment.horizontal
        = (((newWorkbook).getSheet "Sheet").get 1 1).alignment.horizontal) ∧
    (FormatReq.vertical { wrap_text := some true } = none →
      ((((format_range ctxDemo (some newWorkbook) "Sheet" "A1:A1"
          { wrap_text := some true } false).2.getD newWorkbook).getSheet "Sheet").get
        1 1).alignment.vertical
        = (((newWorkbook).getSheet "Sheet").get 1 1).alignment.vertical) ∧
    (FormatReq.number_format { wrap_text := some true } = none →
      ((((format_range ctxDemo (some newWorkbook) "Sheet" "A1:A1"
          { wrap_text := some true } false).2.getD newWorkbook).getSheet "Sheet").get
        1 1).number_format
        = (((newWorkbook).getSheet "Sheet").get 1 1).number_format) ∧
    (FormatReq.fill_hex { wrap_text := some true } = none →
      ((((format_range ctxDemo (some newWorkbook) "Sheet" "A1:A1"
          { wrap_text := some true } false).2.getD newWorkbook).getSheet "Sheet").get
        1 1).fill = (((newWorkbook).getSheet "Sheet").get 1 1).fill) :=
  claim7_format_merge ctxDemo newWorkbook "Sheet" "A1:A1"
    { wrap_text := some true } false 1 1 1 1 ⟨1⟩
    (by rfl) (by rfl) (Or.inl (by decide)) (by rfl) (by rfl) 1 1

end ExcelMcp
